import Mathlib

/-!
Verification of the session-token lifecycle and authenticated-request gating
logic of the GLPI-MANUTENCAO frontend.

The embedding models JavaScript strings as lists of Unicode code points
(`Str := List Nat`) and machine side effects explicitly:

* browser `localStorage` is a `Storage` record; an access that throws is an
  `Except.error`, mirroring the presence or absence of `try/catch` in the
  source (`getToken` catches, `setToken` and `clearToken` do not);
* the platform primitives `atob`, `decodeURIComponent` (on percent-encoded
  bytes, i.e. UTF-8 decoding) and `JSON.parse` are modelled as total
  functions into `Option`, where `none` is the raised exception that the
  source may or may not catch.  JSON numbers are modelled as integers,
  which covers every claim at issue (the only numeric claims field used by
  the code is `exp`, in whole seconds);
* `Date.now()` (through `Math.floor(Date.now()/1000)`) and
  `process.env.NEXT_PUBLIC_PY_API_URL` are explicit parameters `now` and
  `env`;
* the `AppFrame` protected-page effect is split into its synchronous part
  (`protectedMount`, lines 40-60 of AppFrame.tsx) and the handler of the
  settled fetch promise (`settle`, lines 61-73), with the possible promise
  outcomes (HTTP response, transport failure, teardown abort) enumerated in
  `FetchOutcome`.
-/

set_option maxRecDepth 10000

/-- Strings of the JavaScript runtime, as lists of Unicode code points. -/
abbrev Str : Type := List Nat

/-- Convenience: embed a Lean string literal as a `Str`. -/
def strLit (s : String) : Str := s.data.map Char.toNat

/-! ## Token Store (HomeClient.tsx part 2, lines 326-345)

The browser storage context: `present = false` models server-side rendering
(`typeof window === "undefined"`), `failing = true` models a storage whose
accesses throw, and `slot` is the value under the key
`"glpi_manutencao_token"`. -/

structure Storage where
  present : Bool
  failing : Bool
  slot : Option Str
deriving DecidableEq

/-- Platform model: `window.localStorage.getItem(TOKEN_KEY)`. -/
def rawGetItem (st : Storage) : Except String (Option Str) :=
  if st.failing then Except.error "storage access failure" else Except.ok st.slot

/-- Platform model: `window.localStorage.setItem(TOKEN_KEY, v)`. -/
def rawSetItem (st : Storage) (v : Str) : Except String Storage :=
  if st.failing then Except.error "storage access failure"
  else Except.ok { st with slot := some v }

/-- Platform model: `window.localStorage.removeItem(TOKEN_KEY)`. -/
def rawRemoveItem (st : Storage) : Except String Storage :=
  if st.failing then Except.error "storage access failure"
  else Except.ok { st with slot := none }

/-- Source `getToken` (HomeClient.tsx lines 328-335): returns `null` when no
window exists, and wraps the storage access in `try { } catch { return null }`. -/
def getToken (st : Storage) : Option Str :=
  if st.present = false then none
  else
    match rawGetItem st with
    | Except.ok v => v
    | Except.error _ => none

/-- Source `setToken` (lines 337-340): returns early when no window exists,
but performs the storage access with no `try/catch`, so a throwing access
propagates. -/
def setToken (st : Storage) (token : Str) : Except String Storage :=
  if st.present = false then Except.ok st
  else rawSetItem st token

/-- Source `clearToken` (lines 342-345): returns early when no window exists,
but performs the storage access with no `try/catch`. -/
def clearToken (st : Storage) : Except String Storage :=
  if st.present = false then Except.ok st
  else rawRemoveItem st

/-! ## Dot-splitting (model of `t.split(".")`) -/

/-- Model of JavaScript `t.split(".")`; code point 46 is the dot. The result
is always non-empty, and the empty string splits to `[[]]`. -/
def splitDot : Str → List Str
  | [] => [[]]
  | c :: rest =>
    if c = 46 then [] :: splitDot rest
    else
      match splitDot rest with
      | s :: tail => (c :: s) :: tail
      | [] => [[c]]

/-! ## Base64 (platform model of `atob`, WHATWG forgiving-base64) -/

/-- ASCII whitespace removed by forgiving-base64. -/
def isB64Ws (c : Nat) : Bool :=
  c == 9 || c == 10 || c == 12 || c == 13 || c == 32

/-- Value of a standard base64 alphabet character. -/
def b64Val (c : Nat) : Option Nat :=
  if 65 ≤ c ∧ c ≤ 90 then some (c - 65)
  else if 97 ≤ c ∧ c ≤ 122 then some (c - 97 + 26)
  else if 48 ≤ c ∧ c ≤ 57 then some (c - 48 + 52)
  else if c = 43 then some 62
  else if c = 47 then some 63
  else none

/-- Remove one trailing `=` (code 61) if present. -/
def stripOneEq (s : Str) : Str :=
  if s.getLast? = some 61 then s.dropLast else s

/-- Decode base64 characters four at a time; a final chunk of two or three
characters yields one or two bytes, with leftover bits discarded
(forgiving-base64). A chunk of one character is invalid. -/
def atobChunks : Str → Option (List Nat)
  | a :: b :: c :: d :: rest =>
    match b64Val a, b64Val b, b64Val c, b64Val d, atobChunks rest with
    | some va, some vb, some vc, some vd, some tail =>
      some ((va * 4 + vb / 16) :: (vb % 16 * 16 + vc / 4) :: (vc % 4 * 64 + vd) :: tail)
    | _, _, _, _, _ => none
  | [a, b, c] =>
    match b64Val a, b64Val b, b64Val c with
    | some va, some vb, some vc => some [va * 4 + vb / 16, vb % 16 * 16 + vc / 4]
    | _, _, _ => none
  | [a, b] =>
    match b64Val a, b64Val b with
    | some va, some vb => some [va * 4 + vb / 16]
    | _, _ => none
  | [_] => none
  | [] => some []

/-- Platform model of `window.atob` (WHATWG forgiving-base64): strip ASCII
whitespace, strip up to two trailing `=` when the length is a multiple of
four, reject a remainder of one, then decode. `none` is the thrown
`InvalidCharacterError`. -/
def atob (s : Str) : Option (List Nat) :=
  let t := s.filter (fun c => !isB64Ws c)
  let t2 := if t.length % 4 = 0 then stripOneEq (stripOneEq t) else t
  if t2.length % 4 = 1 then none else atobChunks t2

/-! ## URL-safe base64 normalization (source `base64UrlDecode`, lines 347-363) -/

/-- Source: `pad ? input + "=".repeat(4 - pad) : input` with
`pad = input.length % 4`. -/
def rePad4 (input : Str) : Str :=
  if input.length % 4 = 0 then input
  else input ++ List.replicate (4 - input.length % 4) 61

/-- Source: the two global replacements taking dash (45) to plus (43) and
underscore (95) to slash (47), applied pointwise. -/
def substToStd (c : Nat) : Nat :=
  if c = 45 then 43 else if c = 95 then 47 else c

/-- The `normalized` value computed by the source before calling `atob`. -/
def normalizeB64 (input : Str) : Str :=
  (rePad4 input).map substToStd

/-! ## UTF-8 (platform model of the `decodeURIComponent` percent-trick) -/

/-- Valid Unicode scalar value: in range and not a surrogate. -/
def scalarOK (c : Nat) : Prop :=
  c < 1114112 ∧ ¬(55296 ≤ c ∧ c ≤ 57343)

instance (c : Nat) : Decidable (scalarOK c) := by
  unfold scalarOK; infer_instance

/-- Strict UTF-8 decoding, one byte at a time. The first argument carries a
partially decoded multi-byte sequence: remaining continuation bytes, the
accumulated code point, and the minimum value the finished code point must
reach (rejecting overlong encodings). Surrogates and values above 0x10FFFF
are rejected, exactly as `decodeURIComponent` rejects them. -/
def utf8DecodeAux : Option (Nat × Nat × Nat) → List Nat → Option Str
  | none, [] => some []
  | some _, [] => none
  | none, b :: rest =>
    if b < 128 then (utf8DecodeAux none rest).map (fun s => b :: s)
    else if b < 192 then none
    else if b < 224 then utf8DecodeAux (some (1, b - 192, 128)) rest
    else if b < 240 then utf8DecodeAux (some (2, b - 224, 2048)) rest
    else if b < 248 then utf8DecodeAux (some (3, b - 240, 65536)) rest
    else none
  | some (k, acc, mn), b :: rest =>
    if 128 ≤ b ∧ b < 192 then
      if k ≤ 1 then
        if mn ≤ acc * 64 + (b - 128) ∧ scalarOK (acc * 64 + (b - 128)) then
          (utf8DecodeAux none rest).map (fun s => (acc * 64 + (b - 128)) :: s)
        else none
      else utf8DecodeAux (some (k - 1, acc * 64 + (b - 128), mn)) rest
    else none

/-- Platform model of interpreting a byte sequence as UTF-8 text; the source
reaches this through `decodeURIComponent` applied to percent-encoded bytes.
`none` is the thrown `URIError`. -/
def utf8Decode (bytes : List Nat) : Option Str :=
  utf8DecodeAux none bytes

/-- Modelled from the spec: UTF-8 encoding of one Unicode scalar value, used
by the external login flow when it builds the credential payload. -/
def utf8EncodeChar (c : Nat) : List Nat :=
  if c < 128 then [c]
  else if c < 2048 then [192 + c / 64, 128 + c % 64]
  else if c < 65536 then [224 + c / 4096, 128 + c / 64 % 64, 128 + c % 64]
  else [240 + c / 262144, 128 + c / 4096 % 64, 128 + c / 64 % 64, 128 + c % 64]

/-- Modelled from the spec: UTF-8 encoding of a string. -/
def utf8Encode (s : Str) : List Nat :=
  (s.map utf8EncodeChar).flatten

/-- Source `base64UrlDecode` (HomeClient.tsx lines 347-363): pad to a
multiple of four, substitute the URL-safe alphabet back, `atob`, then decode
the resulting bytes as UTF-8; the surrounding `try/catch` turns any raised
error into the empty string. -/
def base64UrlDecode (input : Str) : Str :=
  match atob (normalizeB64 input) with
  | none => []
  | some bytes =>
    match utf8Decode bytes with
    | none => []
    | some s => s

/-! ## JSON (platform model of `JSON.parse`; numbers as integers) -/

/-- JSON values. Object members keep their textual order; duplicate keys are
resolved on access (last wins), as for a JavaScript object literal. -/
inductive Json where
  | null : Json
  | bool (b : Bool) : Json
  | num (n : Int) : Json
  | str (s : Str) : Json
  | arr (elems : List Json) : Json
  | obj (members : List (Str × Json)) : Json

/-- Value of one hexadecimal digit character. -/
def hexVal (c : Nat) : Option Nat :=
  if 48 ≤ c ∧ c ≤ 57 then some (c - 48)
  else if 65 ≤ c ∧ c ≤ 70 then some (c - 55)
  else if 97 ≤ c ∧ c ≤ 102 then some (c - 87)
  else none

/-- Parse the body of a JSON string literal, after the opening quote: plain
characters (at least 0x20, not quote, not backslash), the short escapes, and
four-digit `u` escapes. Returns the decoded string and the rest of the
input after the closing quote. -/
def parseStringBody : Str → Option (Str × Str)
  | [] => none
  | 34 :: rest => some ([], rest)
  | 92 :: 117 :: h1 :: h2 :: h3 :: h4 :: rest =>
    match hexVal h1, hexVal h2, hexVal h3, hexVal h4, parseStringBody rest with
    | some v1, some v2, some v3, some v4, some (s, r) =>
      some ((v1 * 4096 + v2 * 256 + v3 * 16 + v4) :: s, r)
    | _, _, _, _, _ => none
  | 92 :: e :: rest =>
    if e = 34 ∨ e = 92 ∨ e = 47 then
      (parseStringBody rest).map (fun p => (e :: p.1, p.2))
    else if e = 98 then (parseStringBody rest).map (fun p => (8 :: p.1, p.2))
    else if e = 102 then (parseStringBody rest).map (fun p => (12 :: p.1, p.2))
    else if e = 110 then (parseStringBody rest).map (fun p => (10 :: p.1, p.2))
    else if e = 114 then (parseStringBody rest).map (fun p => (13 :: p.1, p.2))
    else if e = 116 then (parseStringBody rest).map (fun p => (9 :: p.1, p.2))
    else none
  | c :: rest =>
    if c < 32 then none
    else (parseStringBody rest).map (fun p => (c :: p.1, p.2))

/-- Decimal digit character. -/
def isDigitChar (c : Nat) : Bool := 48 ≤ c && c ≤ 57

/-- Numeric value of a list of decimal digit characters. -/
def digitsToNat (ds : Str) : Nat :=
  ds.foldl (fun acc d => acc * 10 + (d - 48)) 0

/-- Parse a non-empty run of decimal digits. -/
def parseDigits (s : Str) : Option (Nat × Str) :=
  if s.takeWhile isDigitChar = [] then none
  else some (digitsToNat (s.takeWhile isDigitChar), s.dropWhile isDigitChar)

/-- JSON insignificant whitespace. -/
def isWsChar (c : Nat) : Bool := c == 9 || c == 10 || c == 13 || c == 32

/-- Skip JSON whitespace. -/
def skipWs (s : Str) : Str := s.dropWhile isWsChar

/-- Parsing mode of the single fueled JSON parser: a value, the continuation
of an array after one element, one object member, or the continuation of an
object after one member. -/
inductive PMode where
  | top : PMode
  | elems : PMode
  | member : PMode
  | members : PMode

/-- Result of one parsing step, tagged by mode. -/
inductive PRes where
  | val (j : Json) : PRes
  | elemsR (js : List Json) : PRes
  | memberR (kv : Str × Json) : PRes
  | membersR (kvs : List (Str × Json)) : PRes

/-- Recursive-descent JSON parser. The fuel argument strictly decreases on
every recursive call, and the top-level wrapper supplies fuel larger than
the input length, which is always sufficient since every recursion step
consumes input. -/
def parseJ : Nat → PMode → Str → Option (PRes × Str)
  | 0, _, _ => none
  | fuel + 1, PMode.top, s =>
    match skipWs s with
    | [] => none
    | c :: rest =>
      if c = 34 then
        (parseStringBody rest).map (fun p => (PRes.val (Json.str p.1), p.2))
      else if c = 110 then
        match rest with
        | 117 :: 108 :: 108 :: r => some (PRes.val Json.null, r)
        | _ => none
      else if c = 116 then
        match rest with
        | 114 :: 117 :: 101 :: r => some (PRes.val (Json.bool true), r)
        | _ => none
      else if c = 102 then
        match rest with
        | 97 :: 108 :: 115 :: 101 :: r => some (PRes.val (Json.bool false), r)
        | _ => none
      else if c = 91 then
        match skipWs rest with
        | 93 :: r => some (PRes.val (Json.arr []), r)
        | s2 =>
          match parseJ fuel PMode.top s2 with
          | some (PRes.val v, r) =>
            match parseJ fuel PMode.elems r with
            | some (PRes.elemsR vs, r2) => some (PRes.val (Json.arr (v :: vs)), r2)
            | _ => none
          | _ => none
      else if c = 123 then
        match skipWs rest with
        | 125 :: r => some (PRes.val (Json.obj []), r)
        | s2 =>
          match parseJ fuel PMode.member s2 with
          | some (PRes.memberR kv, r) =>
            match parseJ fuel PMode.members r with
            | some (PRes.membersR kvs, r2) => some (PRes.val (Json.obj (kv :: kvs)), r2)
            | _ => none
          | _ => none
      else if c = 45 then
        match parseDigits rest with
        | some (n, r) => some (PRes.val (Json.num (-(n : Int))), r)
        | none => none
      else if isDigitChar c then
        match parseDigits (c :: rest) with
        | some (n, r) => some (PRes.val (Json.num (n : Int)), r)
        | none => none
      else none
  | fuel + 1, PMode.elems, s =>
    match skipWs s with
    | 93 :: r => some (PRes.elemsR [], r)
    | 44 :: r =>
      match parseJ fuel PMode.top r with
      | some (PRes.val v, r2) =>
        match parseJ fuel PMode.elems r2 with
        | some (PRes.elemsR vs, r3) => some (PRes.elemsR (v :: vs), r3)
        | _ => none
      | _ => none
    | _ => none
  | fuel + 1, PMode.member, s =>
    match skipWs s with
    | 34 :: rest =>
      match parseStringBody rest with
      | some (k, r) =>
        match skipWs r with
        | 58 :: r2 =>
          match parseJ fuel PMode.top r2 with
          | some (PRes.val v, r3) => some (PRes.memberR (k, v), r3)
          | _ => none
        | _ => none
      | none => none
    | _ => none
  | fuel + 1, PMode.members, s =>
    match skipWs s with
    | 125 :: r => some (PRes.membersR [], r)
    | 44 :: r =>
      match parseJ fuel PMode.member r with
      | some (PRes.memberR kv, r2) =>
        match parseJ fuel PMode.members r2 with
        | some (PRes.membersR kvs, r3) => some (PRes.membersR (kv :: kvs), r3)
        | _ => none
      | _ => none
    | _ => none

/-- Platform model of `JSON.parse`: one JSON value, with nothing but
whitespace after it. `none` is the thrown `SyntaxError`. -/
def Json.parse (s : Str) : Option Json :=
  match parseJ (s.length + 1) PMode.top s with
  | some (PRes.val j, r) => if skipWs r = [] then some j else none
  | _ => none

/-! ## Credential Decoder (source `getTokenPayload`, lines 375-388) -/

/-- Source `getTokenPayload`: fall back to the stored token only for a
nullish argument, treat a falsy token as no claims, split on dots, require
two segments, base64url-decode the second, treat the empty result as
failure, and JSON-parse the rest, returning `null` on a parse error. -/
def getTokenPayload (st : Storage) (token : Option Str) : Option Json :=
  match (match token with | some s => some s | none => getToken st) with
  | none => none
  | some t =>
    if t = [] then none
    else
      if (splitDot t).length < 2 then none
      else
        match base64UrlDecode (splitDot t)[1]! with
        | [] => none
        | json => Json.parse json

/-! ## Expiry Evaluator (source `isTokenExpired`, lines 390-396) -/

/-- JavaScript property access on a parsed JSON value: `obj[k]` with
last-wins duplicate keys; `undefined` (here `none`) for every non-object. -/
def objGet (members : List (Str × Json)) (k : Str) : Option Json :=
  members.foldl (fun acc kv => if kv.1 = k then some kv.2 else acc) none

/-- The `payload?.exp` value when it is a number, mirroring
`typeof exp === "number"`. -/
def expOf (payload : Json) : Option Int :=
  match payload with
  | Json.obj kvs =>
    match objGet kvs (strLit "exp") with
    | some (Json.num n) => some n
    | _ => none
  | _ => none

/-- Source `isTokenExpired`: claims through the decoder; a missing,
non-numeric, or falsy (zero) `exp` is expired; otherwise compare
`now >= exp - Math.max(0, skewSeconds)`. `now` stands for
`Math.floor(Date.now() / 1000)`. -/
def isTokenExpired (st : Storage) (now : Nat) (token : Option Str)
    (skewSeconds : Int := 30) : Bool :=
  match getTokenPayload st token with
  | none => true
  | some payload =>
    match expOf payload with
    | none => true
    | some e =>
      if e = 0 then true
      else decide ((now : Int) ≥ e - max 0 skewSeconds)

/-! ## Encoder (modelled from the spec; the login flow that creates
credentials is external to the repository) -/

/-- Lowercase hexadecimal digit character. -/
def hexDigitLower (n : Nat) : Nat := if n < 10 then 48 + n else 87 + n

/-- Modelled from the spec: JSON string escaping for one character, as
produced when a claims record is serialized (quote, backslash, and control
characters escaped; everything else literal). -/
def escapeChar (c : Nat) : Str :=
  if c = 34 then [92, 34]
  else if c = 92 then [92, 92]
  else if c < 32 then [92, 117, 48, 48, hexDigitLower (c / 16), hexDigitLower (c % 16)]
  else [c]

/-- Modelled from the spec: a JSON string literal. -/
def renderString (s : Str) : Str :=
  34 :: (s.map escapeChar).flatten ++ [34]

/-- Decimal digits of a natural number; the fuel is structural and any fuel
above the number of digits is enough. -/
def natDigitsAux : Nat → Nat → Str
  | 0, _ => []
  | fuel + 1, n => if n < 10 then [48 + n] else natDigitsAux fuel (n / 10) ++ [48 + n % 10]

/-- Decimal digits of a natural number. -/
def natDigits (n : Nat) : Str := natDigitsAux (n + 1) n

/-- Modelled from the spec: a JSON integer literal. -/
def renderInt (n : Int) : Str :=
  if n < 0 then 45 :: natDigits (-n).toNat else natDigits n.toNat

/-- The claims record of the spec data model: `sub`, `display_name`,
`email`, `groups`, `iat`, `exp`. -/
structure ClaimsRecord where
  sub : Str
  display_name : Str
  email : Str
  groups : List Str
  iat : Int
  exp : Int
deriving DecidableEq

/-- The JSON object a claims record parses back to. -/
def claimsToJson (c : ClaimsRecord) : Json :=
  Json.obj
    [ (strLit "sub", Json.str c.sub)
    , (strLit "display_name", Json.str c.display_name)
    , (strLit "email", Json.str c.email)
    , (strLit "groups", Json.arr (c.groups.map Json.str))
    , (strLit "iat", Json.num c.iat)
    , (strLit "exp", Json.num c.exp) ]

/-- Modelled from the spec: the comma-separated rendering of the `groups`
array elements. -/
def renderGroups : List Str → Str
  | [] => []
  | [g] => renderString g
  | g :: rest => renderString g ++ 44 :: renderGroups rest

/-- Modelled from the spec: JSON serialization of a claims record. -/
def renderClaims (c : ClaimsRecord) : Str :=
  123 :: renderString (strLit "sub") ++ 58 :: renderString c.sub
  ++ 44 :: renderString (strLit "display_name") ++ 58 :: renderString c.display_name
  ++ 44 :: renderString (strLit "email") ++ 58 :: renderString c.email
  ++ 44 :: renderString (strLit "groups") ++ 58 :: (91 :: renderGroups c.groups ++ [93])
  ++ 44 :: renderString (strLit "iat") ++ 58 :: renderInt c.iat
  ++ 44 :: renderString (strLit "exp") ++ 58 :: renderInt c.exp
  ++ [125]

/-- Standard base64 alphabet character for a 6-bit value. -/
def b64Char (v : Nat) : Nat :=
  if v < 26 then 65 + v
  else if v < 52 then 97 + (v - 26)
  else if v < 62 then 48 + (v - 52)
  else if v = 62 then 43
  else 47

/-- Modelled from the spec: standard base64 encoding with padding
(the `btoa` step of building a credential payload). -/
def btoaBytes : List Nat → Str
  | [] => []
  | [x] => [b64Char (x / 4), b64Char (x % 4 * 16), 61, 61]
  | [x, y] => [b64Char (x / 4), b64Char (x % 4 * 16 + y / 16), b64Char (y % 16 * 4), 61]
  | x :: y :: z :: rest =>
    b64Char (x / 4) :: b64Char (x % 4 * 16 + y / 16) :: b64Char (y % 16 * 4 + z / 64)
      :: b64Char (z % 64) :: btoaBytes rest

/-- Modelled from the spec: the substitutions taking standard base64 to the
URL-safe alphabet. -/
def substToUrl (c : Nat) : Nat :=
  if c = 43 then 45 else if c = 47 then 95 else c

/-- Remove all trailing `=` characters. -/
def removeTrailingEq (s : Str) : Str :=
  (s.reverse.dropWhile (fun c => c == 61)).reverse

/-- Modelled from the spec: URL-safe base64 encoding, with the dash and
underscore substitutions applied and the padding stripped. -/
def base64UrlEncode (bytes : List Nat) : Str :=
  removeTrailingEq ((btoaBytes bytes).map substToUrl)

/-- Chunked form of the URL-safe unpadded encoding; proved equal to
`base64UrlEncode` below and easier to recurse over. -/
def b64uChunks : List Nat → Str
  | [] => []
  | [x] => [substToUrl (b64Char (x / 4)), substToUrl (b64Char (x % 4 * 16))]
  | [x, y] =>
    [substToUrl (b64Char (x / 4)), substToUrl (b64Char (x % 4 * 16 + y / 16))
    , substToUrl (b64Char (y % 16 * 4))]
  | x :: y :: z :: rest =>
    substToUrl (b64Char (x / 4)) :: substToUrl (b64Char (x % 4 * 16 + y / 16))
      :: substToUrl (b64Char (y % 16 * 4 + z / 64)) :: substToUrl (b64Char (z % 64))
      :: b64uChunks rest

/-- The rendering of the group elements after the first, each preceded by a
comma. -/
def groupsTail (gs : List Str) : Str :=
  (gs.map (fun g => 44 :: renderString g)).flatten

/-- Modelled from the spec: the payload segment of a credential carrying a
claims record. -/
def encodeClaims (c : ClaimsRecord) : Str :=
  base64UrlEncode (utf8Encode (renderClaims c))

/-- Modelled from the spec: a three-segment credential with the encoded
claims record as its second dot-separated segment. -/
def mkCredential (hdr : Str) (c : ClaimsRecord) (sig : Str) : Str :=
  hdr ++ 46 :: encodeClaims c ++ 46 :: sig

/-- All characters of a string are valid Unicode scalar values. -/
def strScalars (s : Str) : Prop := ∀ ch ∈ s, scalarOK ch

instance (s : Str) : Decidable (strScalars s) := by
  unfold strScalars; infer_instance

/-- The strings of a claims record consist of valid Unicode scalar values. -/
def claimsOK (c : ClaimsRecord) : Prop :=
  strScalars c.sub ∧ strScalars c.display_name ∧ strScalars c.email
    ∧ ∀ g ∈ c.groups, strScalars g

instance (c : ClaimsRecord) : Decidable (claimsOK c) := by
  unfold claimsOK; infer_instance

/-! ## Configuration and CRUD fetch wrappers (src/unnamed/part_000) -/

/-- Source `getBaseUrl` (part_000 lines 8-12): a falsy
`NEXT_PUBLIC_PY_API_URL` throws, no default. -/
def getBaseUrl (env : Option Str) : Except String Str :=
  match env with
  | none => Except.error "NEXT_PUBLIC_PY_API_URL não configurada"
  | some py =>
    if py = [] then Except.error "NEXT_PUBLIC_PY_API_URL não configurada"
    else Except.ok py

/-- Characters `encodeURIComponent` leaves alone. -/
def isUriUnreserved (c : Nat) : Bool :=
  (65 ≤ c && c ≤ 90) || (97 ≤ c && c ≤ 122) || (48 ≤ c && c ≤ 57)
    || c == 45 || c == 46 || c == 95 || c == 126 || c == 33 || c == 42
    || c == 39 || c == 40 || c == 41

/-- Uppercase hexadecimal digit character. -/
def hexDigitUpper (n : Nat) : Nat := if n < 10 then 48 + n else 55 + n

/-- Platform model of `encodeURIComponent` on scalar strings: unreserved
characters pass through, everything else is percent-encoded as UTF-8. -/
def encodeURIComponent (s : Str) : Str :=
  (s.map (fun c =>
    if isUriUnreserved c then [c]
    else ((utf8EncodeChar c).map
      (fun b => [37, hexDigitUpper (b / 16), hexDigitUpper (b % 16)])).flatten)).flatten

/-- Source `getDeviceDetail` (part_000 lines 14-19), up to the point the
request is issued: the URL construction calls `getBaseUrl()` first, so a
missing base URL throws before any fetch. -/
def getDeviceDetailUrl (env : Option Str) (deviceId : Str) : Except String Str :=
  (getBaseUrl env).map (fun base => base ++ strLit "/api/devices/" ++ encodeURIComponent deviceId)

/-- Source `deleteMaintenance` (part_000 lines 112-116), up to the point the
request is issued. -/
def deleteMaintenanceUrl (env : Option Str) (maintenanceId : Nat) : Except String Str :=
  (getBaseUrl env).map (fun base => base ++ strLit "/api/maintenance/" ++ natDigits maintenanceId)

/-! ## Session Guard (AppFrame.tsx, protected-page effect, lines 40-76) -/

/-- The login navigation target. -/
def loginPath : Str := strLit "/login"

/-- Outcome of the synchronous part of the protected-page effect:
a `router.replace`, a render with the session check skipped (missing base
URL), or exactly one identity-verification request in flight. -/
inductive MountStep where
  | redirected (target : Str) : MountStep
  | renderedUnverified : MountStep
  | requested (url : Str) (authorization : Str) : MountStep
deriving DecidableEq

/-- Number of network requests a mount step issues. -/
def stepRequests : MountStep → Nat
  | MountStep.requested _ _ => 1
  | _ => 0

/-- Source AppFrame effect, synchronous part (lines 40-60): read the token;
if falsy or locally expired, clear the store and redirect to `/login`
without any network call; if the base URL is falsy, stop checking and
render; otherwise issue the single verification fetch with the bearer
header. A throwing storage access propagates out of the effect. -/
def protectedMount (now : Nat) (env : Option Str) (st : Storage) :
    Except String (MountStep × Storage) :=
  match getToken st with
  | none => (clearToken st).map (fun st2 => (MountStep.redirected loginPath, st2))
  | some token =>
    if token = [] then
      (clearToken st).map (fun st2 => (MountStep.redirected loginPath, st2))
    else if isTokenExpired st now (some token) then
      (clearToken st).map (fun st2 => (MountStep.redirected loginPath, st2))
    else
      match env with
      | none => Except.ok (MountStep.renderedUnverified, st)
      | some base =>
        if base = [] then Except.ok (MountStep.renderedUnverified, st)
        else
          Except.ok
            (MountStep.requested (base ++ strLit "/api/auth/me") (strLit "Bearer " ++ token), st)

/-- How the in-flight verification promise settles: an HTTP response with a
status and a raw body, a transport failure, or the rejection produced when
teardown calls `ctrl.abort()`. -/
inductive FetchOutcome where
  | response (status : Nat) (body : Str) : FetchOutcome
  | transportError : FetchOutcome
  | aborted : FetchOutcome
deriving DecidableEq

/-- State reached by the instance after the promise settles. -/
inductive SettleStep where
  | authenticated (me : Json) : SettleStep
  | loggedOut (target : Str) : SettleStep

/-- Source AppFrame effect, promise handlers (lines 61-73): a 401 throws
`unauthorized`, any other non-2xx throws, a 2xx body is `res.json()`-parsed
(a malformed body rejects); every rejection, including the abort rejection,
reaches the single `.catch`, which clears the store and redirects to
`/login`. -/
def settle (st : Storage) (outcome : FetchOutcome) :
    Except String (SettleStep × Storage) :=
  match outcome with
  | FetchOutcome.response status body =>
    if status = 401 then
      (clearToken st).map (fun st2 => (SettleStep.loggedOut loginPath, st2))
    else if status < 200 ∨ 299 < status then
      (clearToken st).map (fun st2 => (SettleStep.loggedOut loginPath, st2))
    else
      match Json.parse body with
      | some j => Except.ok (SettleStep.authenticated j, st)
      | none => (clearToken st).map (fun st2 => (SettleStep.loggedOut loginPath, st2))
  | FetchOutcome.transportError =>
    (clearToken st).map (fun st2 => (SettleStep.loggedOut loginPath, st2))
  | FetchOutcome.aborted =>
    (clearToken st).map (fun st2 => (SettleStep.loggedOut loginPath, st2))

/-! ## Concrete fixtures used by witnesses and counterexamples -/

/-- A dot-free header segment. -/
def hdr0 : Str := strLit "hd"

/-- A signature segment. -/
def sig0 : Str := strLit "sg"

/-- A small well-formed claims record with a chosen expiry. -/
def testClaims (e : Int) : ClaimsRecord :=
  { sub := strLit "u1", display_name := strLit "User", email := strLit "u@x"
  , groups := [strLit "g1"], iat := 1, exp := e }

/-- A well-formed credential with a chosen expiry claim. -/
def testCred (e : Int) : Str := mkCredential hdr0 (testClaims e) sig0

/-- Working browser storage with no stored credential. -/
def stEmpty : Storage := { present := true, failing := false, slot := none }

/-- Working browser storage holding a given credential. -/
def stWith (t : Str) : Storage := { present := true, failing := false, slot := some t }

/-- Browser storage whose accesses throw. -/
def stFailing : Storage := { present := true, failing := true, slot := none }

/-- Browser storage whose accesses throw, with a credential in the slot. -/
def stFailingTok : Storage := { present := true, failing := true, slot := some (strLit "tok") }

/-! ## Lemmas: token store -/

theorem getToken_eq (st : Storage) :
    getToken st = if st.present = true ∧ st.failing = false then st.slot else none := by
  rcases st with ⟨p, f, s⟩
  rcases p <;> rcases f <;> simp [getToken, rawGetItem]

theorem clearToken_ok (st : Storage) (hp : st.present = true) (hf : st.failing = false) :
    clearToken st = Except.ok { st with slot := none } := by
  simp [clearToken, rawRemoveItem, hp, hf]

/-! ## Lemmas: dot splitting -/

theorem splitDot_ne_nil (s : Str) : splitDot s ≠ [] := by
  induction s with
  | nil => simp [splitDot]
  | cons c rest ih =>
    by_cases h : c = 46
    · simp [splitDot, h]
    · cases h2 : splitDot rest with
      | nil => exact absurd h2 ih
      | cons a t => simp [splitDot, h, h2]

theorem splitDot_sep (a b : Str) (ha : 46 ∉ a) :
    splitDot (a ++ 46 :: b) = a :: splitDot b := by
  induction a with
  | nil => simp [splitDot]
  | cons c a2 ih =>
    have hc : c ≠ 46 := by intro h; exact ha (by simp [h])
    have ha2 : 46 ∉ a2 := fun h => ha (by simp [h])
    simp only [List.cons_append, splitDot, hc, if_false]
    rw [List.append_eq, ih ha2]

/-! ## Lemmas: base64 characters -/

theorem b64Val_b64Char (v : Nat) (h : v < 64) : b64Val (b64Char v) = some v := by
  unfold b64Char b64Val
  split_ifs <;> first | (exfalso; omega) | (congr 1; omega)

theorem b64Char_ge (v : Nat) : 43 ≤ b64Char v := by
  unfold b64Char; split_ifs <;> omega

theorem b64Char_ne_61 (v : Nat) : b64Char v ≠ 61 := by
  unfold b64Char; split_ifs <;> omega

theorem substToUrl_b64Char_ge (v : Nat) : 43 ≤ substToUrl (b64Char v) := by
  unfold b64Char substToUrl; split_ifs <;> omega

theorem substToUrl_b64Char_ne_61 (v : Nat) : substToUrl (b64Char v) ≠ 61 := by
  unfold b64Char substToUrl; split_ifs <;> omega

theorem substToUrl_b64Char_ne_46 (v : Nat) : substToUrl (b64Char v) ≠ 46 := by
  unfold b64Char substToUrl; split_ifs <;> omega

theorem substToStd_substToUrl (v : Nat) : substToStd (substToUrl (b64Char v)) = b64Char v := by
  unfold b64Char substToUrl substToStd; split_ifs <;> omega

theorem substToStd_61 : substToStd 61 = 61 := rfl

theorem substToStd_ge (c : Nat) (h : 43 ≤ c) : 43 ≤ substToStd c := by
  unfold substToStd; split_ifs <;> omega

theorem isB64Ws_false_of_ge (c : Nat) (h : 43 ≤ c) : isB64Ws c = false := by
  simp only [isB64Ws, Bool.or_eq_false_iff, beq_eq_false_iff_ne]
  omega

/-! ## Lemmas: padding removal and restoration -/

theorem removeTrailingEq_nil : removeTrailingEq [] = [] := rfl

theorem removeTrailingEq_concat_ne (l : Str) (c : Nat) (h : c ≠ 61) :
    removeTrailingEq (l ++ [c]) = l ++ [c] := by
  simp only [removeTrailingEq, List.reverse_append, List.reverse_cons, List.reverse_nil,
    List.nil_append, List.cons_append, List.dropWhile_cons, beq_eq_false_iff_ne.mpr h,
    Bool.false_eq_true, if_false, List.reverse_cons, List.reverse_reverse]

theorem removeTrailingEq_append (l1 l2 : Str) (h : removeTrailingEq l2 ≠ []) :
    removeTrailingEq (l1 ++ l2) = l1 ++ removeTrailingEq l2 := by
  have h2 : l2.reverse.dropWhile (fun c => c == 61) ≠ [] := by
    intro heq
    apply h
    simp [removeTrailingEq, heq]
  simp only [removeTrailingEq, List.reverse_append, List.dropWhile_append,
    List.isEmpty_iff, h2, if_false, List.reverse_append, List.reverse_reverse]

theorem removeTrailingEq_cons_ne (c : Nat) (t : Str) (h : c ≠ 61) :
    removeTrailingEq (c :: t) ≠ [] := by
  intro heq
  have h2 : (c :: t).reverse.dropWhile (fun x => x == 61) = [] := by
    have := congrArg List.reverse heq
    simpa [removeTrailingEq] using this
  have h3 := List.dropWhile_eq_nil_iff.mp h2 c (by simp)
  simp at h3
  exact h h3

theorem stripOneEq_append (l1 l2 : Str) (h : l2 ≠ []) :
    stripOneEq (l1 ++ l2) = l1 ++ stripOneEq l2 := by
  unfold stripOneEq
  rw [List.getLast?_append_of_ne_nil l1 h]
  split_ifs with hc
  · rw [List.dropLast_append]
    simp [List.isEmpty_iff, h]
  · rfl

theorem stripOneEq_concat_ne (l : Str) (c : Nat) (h : c ≠ 61) :
    stripOneEq (l ++ [c]) = l ++ [c] := by
  unfold stripOneEq
  rw [List.getLast?_concat]
  simp [h]

theorem stripOneEq_length_cases (l : Str) :
    (stripOneEq l).length = l.length ∨ (stripOneEq l).length = l.length - 1 := by
  unfold stripOneEq
  split_ifs with hc
  · right; exact List.length_dropLast l
  · left; rfl

theorem stripOneEq_nil : stripOneEq [] = [] := rfl

theorem rePad4_len (l : Str) : (rePad4 l).length % 4 = 0 := by
  unfold rePad4
  split_ifs with h
  · exact h
  · simp only [List.length_append, List.length_replicate]
    omega

theorem rePad4_append_chunk (l1 l2 : Str) (h : l1.length % 4 = 0) :
    rePad4 (l1 ++ l2) = l1 ++ rePad4 l2 := by
  unfold rePad4
  have hlen : (l1 ++ l2).length % 4 = l2.length % 4 := by
    simp only [List.length_append]; omega
  rw [hlen]
  split_ifs with h2
  · rfl
  · rw [List.append_assoc]

/-! ## Lemmas: the URL-safe encoder in chunked form -/

theorem btoaBytes_cons (r : Nat) (rs : List Nat) :
    ∃ t, btoaBytes (r :: rs) = b64Char (r / 4) :: t := by
  match rs with
  | [] => exact ⟨_, rfl⟩
  | [y] => exact ⟨_, rfl⟩
  | y :: z :: t2 => exact ⟨_, rfl⟩

theorem base64UrlEncode_eq_chunks (bytes : List Nat) :
    base64UrlEncode bytes = b64uChunks bytes := by
  induction bytes using b64uChunks.induct with
  | case1 => rfl
  | case2 x =>
    show removeTrailingEq ((btoaBytes [x]).map substToUrl) = _
    have h1 : (btoaBytes [x]).map substToUrl =
        [substToUrl (b64Char (x / 4)), substToUrl (b64Char (x % 4 * 16))] ++ [61, 61] := by
      simp [btoaBytes, substToUrl]
    rw [h1]
    have h2 : removeTrailingEq ([substToUrl (b64Char (x / 4)), substToUrl (b64Char (x % 4 * 16))]
        ++ [61, 61]) = [substToUrl (b64Char (x / 4)), substToUrl (b64Char (x % 4 * 16))] := by
      simp only [removeTrailingEq, List.reverse_append, List.reverse_cons, List.reverse_nil]
      simp [List.dropWhile_cons, beq_eq_false_iff_ne.mpr (substToUrl_b64Char_ne_61 (x % 4 * 16))]
    rw [h2]; rfl
  | case3 x y =>
    show removeTrailingEq ((btoaBytes [x, y]).map substToUrl) = _
    have h1 : (btoaBytes [x, y]).map substToUrl =
        [substToUrl (b64Char (x / 4)), substToUrl (b64Char (x % 4 * 16 + y / 16)),
          substToUrl (b64Char (y % 16 * 4))] ++ [61] := by
      simp [btoaBytes, substToUrl]
    rw [h1]
    have h2 : removeTrailingEq ([substToUrl (b64Char (x / 4)),
        substToUrl (b64Char (x % 4 * 16 + y / 16)), substToUrl (b64Char (y % 16 * 4))]
        ++ [61]) = [substToUrl (b64Char (x / 4)), substToUrl (b64Char (x % 4 * 16 + y / 16)),
          substToUrl (b64Char (y % 16 * 4))] := by
      simp only [removeTrailingEq, List.reverse_append, List.reverse_cons, List.reverse_nil]
      simp [List.dropWhile_cons, beq_eq_false_iff_ne.mpr (substToUrl_b64Char_ne_61 (y % 16 * 4))]
    rw [h2]; rfl
  | case4 x y z rest ih =>
    show removeTrailingEq ((btoaBytes (x :: y :: z :: rest)).map substToUrl) = _
    have h1 : (btoaBytes (x :: y :: z :: rest)).map substToUrl =
        [substToUrl (b64Char (x / 4)), substToUrl (b64Char (x % 4 * 16 + y / 16)),
          substToUrl (b64Char (y % 16 * 4 + z / 64)), substToUrl (b64Char (z % 64))]
          ++ (btoaBytes rest).map substToUrl := by
      simp [btoaBytes]
    rw [h1]
    cases rest with
    | nil =>
      have h2 : ((btoaBytes ([] : List Nat)).map substToUrl) = [] := rfl
      rw [h2, List.append_nil]
      have h3 : [substToUrl (b64Char (x / 4)), substToUrl (b64Char (x % 4 * 16 + y / 16)),
          substToUrl (b64Char (y % 16 * 4 + z / 64)), substToUrl (b64Char (z % 64))] =
          [substToUrl (b64Char (x / 4)), substToUrl (b64Char (x % 4 * 16 + y / 16)),
            substToUrl (b64Char (y % 16 * 4 + z / 64))] ++ [substToUrl (b64Char (z % 64))] := rfl
      rw [h3, removeTrailingEq_concat_ne _ _ (substToUrl_b64Char_ne_61 (z % 64))]
      rfl
    | cons r rs =>
      obtain ⟨t, ht⟩ := btoaBytes_cons r rs
      have hne : removeTrailingEq ((btoaBytes (r :: rs)).map substToUrl) ≠ [] := by
        rw [ht]
        exact removeTrailingEq_cons_ne _ _ (substToUrl_b64Char_ne_61 (r / 4))
      rw [removeTrailingEq_append _ _ hne]
      have hbe : removeTrailingEq ((btoaBytes (r :: rs)).map substToUrl) = b64uChunks (r :: rs) := ih
      rw [hbe]
      rfl

theorem b64uChunks_cons (r : Nat) (rs : List Nat) :
    ∃ t, b64uChunks (r :: rs) = substToUrl (b64Char (r / 4)) :: t := by
  match rs with
  | [] => exact ⟨_, rfl⟩
  | [y] => exact ⟨_, rfl⟩
  | y :: z :: t2 => exact ⟨_, rfl⟩

theorem rePad4_cons (c : Nat) (t : Str) : ∃ t2, rePad4 (c :: t) = c :: t2 := by
  unfold rePad4
  split_ifs
  · exact ⟨t, rfl⟩
  · exact ⟨_, List.cons_append c t _⟩

/-- Decoding inverts the URL-safe encoding at the chunk level: restoring the
padding, substituting back to the standard alphabet, stripping the padding
again and decoding four characters at a time recovers the bytes. -/
theorem atobChunks_roundtrip (bytes : List Nat) (hb : ∀ b ∈ bytes, b < 256) :
    atobChunks (stripOneEq (stripOneEq ((rePad4 (b64uChunks bytes)).map substToStd)))
      = some bytes := by
  induction bytes using b64uChunks.induct with
  | case1 => rfl
  | case2 x =>
    have hx : x < 256 := hb x (by simp)
    have h1 : rePad4 (b64uChunks [x]) =
        [substToUrl (b64Char (x / 4)), substToUrl (b64Char (x % 4 * 16)), 61, 61] := by
      show rePad4 [_, _] = _
      simp [rePad4, List.replicate_succ]
    rw [h1]
    have h2 : ([substToUrl (b64Char (x / 4)), substToUrl (b64Char (x % 4 * 16)), 61, 61]).map
        substToStd = [b64Char (x / 4), b64Char (x % 4 * 16)] ++ [61] ++ [61] := by
      simp [substToStd_substToUrl, substToStd_61]
    rw [h2]
    rw [stripOneEq_append _ _ (by simp)]
    have h3 : stripOneEq [61] = [] := rfl
    rw [h3, List.append_nil]
    rw [stripOneEq_append _ _ (by simp), h3, List.append_nil]
    have hv1 := b64Val_b64Char (x / 4) (by omega)
    have hv2 := b64Val_b64Char (x % 4 * 16) (by omega)
    simp only [atobChunks, hv1, hv2]
    have e1 : x / 4 * 4 + x % 4 * 16 / 16 = x := by
      have d1 : x % 4 * 16 / 16 = x % 4 := by omega
      omega
    rw [e1]
  | case3 x y =>
    have hx : x < 256 := hb x (by simp)
    have hy : y < 256 := hb y (by simp)
    have h1 : rePad4 (b64uChunks [x, y]) =
        [substToUrl (b64Char (x / 4)), substToUrl (b64Char (x % 4 * 16 + y / 16)),
          substToUrl (b64Char (y % 16 * 4)), 61] := by
      show rePad4 [_, _, _] = _
      simp [rePad4, List.replicate_succ]
    rw [h1]
    have h2 : ([substToUrl (b64Char (x / 4)), substToUrl (b64Char (x % 4 * 16 + y / 16)),
        substToUrl (b64Char (y % 16 * 4)), 61]).map substToStd =
        [b64Char (x / 4), b64Char (x % 4 * 16 + y / 16), b64Char (y % 16 * 4)] ++ [61] := by
      simp [substToStd_substToUrl, substToStd_61]
    rw [h2]
    rw [stripOneEq_append _ _ (by simp)]
    have h3 : stripOneEq [61] = [] := rfl
    rw [h3, List.append_nil]
    have h4 : stripOneEq [b64Char (x / 4), b64Char (x % 4 * 16 + y / 16), b64Char (y % 16 * 4)]
        = [b64Char (x / 4), b64Char (x % 4 * 16 + y / 16), b64Char (y % 16 * 4)] := by
      have h5 : [b64Char (x / 4), b64Char (x % 4 * 16 + y / 16), b64Char (y % 16 * 4)] =
          [b64Char (x / 4), b64Char (x % 4 * 16 + y / 16)] ++ [b64Char (y % 16 * 4)] := rfl
      rw [h5, stripOneEq_concat_ne _ _ (b64Char_ne_61 _)]
    rw [h4]
    have hv1 := b64Val_b64Char (x / 4) (by omega)
    have hv2 := b64Val_b64Char (x % 4 * 16 + y / 16) (by omega)
    have hv3 := b64Val_b64Char (y % 16 * 4) (by omega)
    simp only [atobChunks, hv1, hv2, hv3]
    have e1 : x / 4 * 4 + (x % 4 * 16 + y / 16) / 16 = x := by
      have d1 : (x % 4 * 16 + y / 16) / 16 = x % 4 := by omega
      omega
    have e2 : (x % 4 * 16 + y / 16) % 16 * 16 + y % 16 * 4 / 4 = y := by
      have d1 : (x % 4 * 16 + y / 16) % 16 = y / 16 := by omega
      have d2 : y % 16 * 4 / 4 = y % 16 := by omega
      omega
    rw [e1, e2]
  | case4 x y z rest ih =>
    have hx : x < 256 := hb x (by simp)
    have hy : y < 256 := hb y (by simp)
    have hz : z < 256 := hb z (by simp)
    have hrest : ∀ b ∈ rest, b < 256 := fun b hm => hb b (by simp [hm])
    have h1 : b64uChunks (x :: y :: z :: rest) =
        [substToUrl (b64Char (x / 4)), substToUrl (b64Char (x % 4 * 16 + y / 16)),
          substToUrl (b64Char (y % 16 * 4 + z / 64)), substToUrl (b64Char (z % 64))]
          ++ b64uChunks rest := rfl
    rw [h1, rePad4_append_chunk _ _ (by simp), List.map_append]
    have h2 : ([substToUrl (b64Char (x / 4)), substToUrl (b64Char (x % 4 * 16 + y / 16)),
        substToUrl (b64Char (y % 16 * 4 + z / 64)), substToUrl (b64Char (z % 64))]).map
        substToStd = [b64Char (x / 4), b64Char (x % 4 * 16 + y / 16),
          b64Char (y % 16 * 4 + z / 64), b64Char (z % 64)] := by
      simp [substToStd_substToUrl]
    rw [h2]
    have hv1 := b64Val_b64Char (x / 4) (by omega)
    have hv2 := b64Val_b64Char (x % 4 * 16 + y / 16) (by omega)
    have hv3 := b64Val_b64Char (y % 16 * 4 + z / 64) (by omega)
    have hv4 := b64Val_b64Char (z % 64) (by omega)
    have e1 : x / 4 * 4 + (x % 4 * 16 + y / 16) / 16 = x := by
      have d1 : (x % 4 * 16 + y / 16) / 16 = x % 4 := by omega
      omega
    have e2 : (x % 4 * 16 + y / 16) % 16 * 16 + (y % 16 * 4 + z / 64) / 4 = y := by
      have d1 : (x % 4 * 16 + y / 16) % 16 = y / 16 := by omega
      have d2 : (y % 16 * 4 + z / 64) / 4 = y % 16 := by omega
      omega
    have e3 : (y % 16 * 4 + z / 64) % 4 * 64 + z % 64 = z := by
      have d3 : (y % 16 * 4 + z / 64) % 4 = z / 64 := by omega
      omega
    cases rest with
    | nil =>
      have h3 : (rePad4 (b64uChunks ([] : List Nat))).map substToStd = [] := rfl
      rw [h3, List.append_nil]
      have h4 : [b64Char (x / 4), b64Char (x % 4 * 16 + y / 16),
          b64Char (y % 16 * 4 + z / 64), b64Char (z % 64)] =
          [b64Char (x / 4), b64Char (x % 4 * 16 + y / 16), b64Char (y % 16 * 4 + z / 64)]
            ++ [b64Char (z % 64)] := rfl
      rw [h4, stripOneEq_concat_ne _ _ (b64Char_ne_61 _),
        stripOneEq_concat_ne _ _ (b64Char_ne_61 _), ← h4]
      simp only [atobChunks, hv1, hv2, hv3, hv4]
      rw [e1, e2, e3]
    | cons r rs =>
      have hSne : (rePad4 (b64uChunks (r :: rs))).map substToStd ≠ [] := by
        obtain ⟨t, ht⟩ := b64uChunks_cons r rs
        rw [ht]
        obtain ⟨t2, ht2⟩ := rePad4_cons _ t
        rw [ht2]
        simp
      have hSlen : ((rePad4 (b64uChunks (r :: rs))).map substToStd).length % 4 = 0 := by
        rw [List.length_map]; exact rePad4_len _
      have hSge : 4 ≤ ((rePad4 (b64uChunks (r :: rs))).map substToStd).length := by
        have := List.length_pos.mpr hSne
        omega
      have hS1ne : stripOneEq ((rePad4 (b64uChunks (r :: rs))).map substToStd) ≠ [] := by
        have hcases := stripOneEq_length_cases ((rePad4 (b64uChunks (r :: rs))).map substToStd)
        intro heq
        rw [heq] at hcases
        simp only [List.length_nil] at hcases
        omega
      rw [stripOneEq_append _ _ hSne, stripOneEq_append _ _ hS1ne]
      have hW := ih hrest
      simp only [List.cons_append, List.nil_append, List.append_eq, atobChunks,
        hv1, hv2, hv3, hv4, hW]
      rw [e1, e2, e3]

theorem b64uChunks_mem (bytes : List Nat) (c : Nat) (hc : c ∈ b64uChunks bytes) :
    ∃ v, c = substToUrl (b64Char v) := by
  induction bytes using b64uChunks.induct with
  | case1 => simp [b64uChunks] at hc
  | case2 x =>
    simp only [b64uChunks, List.mem_cons, List.not_mem_nil, or_false] at hc
    rcases hc with rfl | rfl
    · exact ⟨_, rfl⟩
    · exact ⟨_, rfl⟩
  | case3 x y =>
    simp only [b64uChunks, List.mem_cons, List.not_mem_nil, or_false] at hc
    rcases hc with rfl | rfl | rfl
    · exact ⟨_, rfl⟩
    · exact ⟨_, rfl⟩
    · exact ⟨_, rfl⟩
  | case4 x y z rest ih =>
    simp only [b64uChunks, List.mem_cons] at hc
    rcases hc with rfl | rfl | rfl | rfl | h
    · exact ⟨_, rfl⟩
    · exact ⟨_, rfl⟩
    · exact ⟨_, rfl⟩
    · exact ⟨_, rfl⟩
    · exact ih h

theorem rePad4_mem (l : Str) (c : Nat) (hc : c ∈ rePad4 l) : c ∈ l ∨ c = 61 := by
  unfold rePad4 at hc
  split_ifs at hc with h
  · exact Or.inl hc
  · rcases List.mem_append.mp hc with h2 | h2
    · exact Or.inl h2
    · exact Or.inr (List.eq_of_mem_replicate h2)

/-- The full `atob` call of the decoder inverts the URL-safe encoding. -/
theorem atob_encode (bytes : List Nat) (hb : ∀ b ∈ bytes, b < 256) :
    atob (normalizeB64 (base64UrlEncode bytes)) = some bytes := by
  rw [base64UrlEncode_eq_chunks]
  show atob ((rePad4 (b64uChunks bytes)).map substToStd) = some bytes
  have hall : ∀ c ∈ (rePad4 (b64uChunks bytes)).map substToStd, (!isB64Ws c) = true := by
    intro c hc
    obtain ⟨c0, hc0, rfl⟩ := List.mem_map.mp hc
    have h43 : 43 ≤ c0 := by
      rcases rePad4_mem _ _ hc0 with h | rfl
      · obtain ⟨v, rfl⟩ := b64uChunks_mem _ _ h
        exact substToUrl_b64Char_ge v
      · omega
    simp [isB64Ws_false_of_ge _ (substToStd_ge _ h43)]
  have hfilter : ((rePad4 (b64uChunks bytes)).map substToStd).filter (fun c => !isB64Ws c)
      = (rePad4 (b64uChunks bytes)).map substToStd := List.filter_eq_self.mpr hall
  have hlen : ((rePad4 (b64uChunks bytes)).map substToStd).length % 4 = 0 := by
    rw [List.length_map]; exact rePad4_len _
  have hnot1 : (stripOneEq (stripOneEq ((rePad4 (b64uChunks bytes)).map substToStd))).length
      % 4 ≠ 1 := by
    have h1 := stripOneEq_length_cases ((rePad4 (b64uChunks bytes)).map substToStd)
    have h2 := stripOneEq_length_cases (stripOneEq ((rePad4 (b64uChunks bytes)).map substToStd))
    omega
  simp only [atob, hfilter]
  rw [if_pos hlen, if_neg hnot1]
  exact atobChunks_roundtrip bytes hb

/-! ## Lemmas: UTF-8 -/

theorem utf8EncodeChar_lt (c : Nat) (h : c < 1114112) : ∀ b ∈ utf8EncodeChar c, b < 256 := by
  intro b hb
  unfold utf8EncodeChar at hb
  split_ifs at hb with h1 h2 h3 <;> simp only [List.mem_cons, List.not_mem_nil, or_false] at hb
  · omega
  · rcases hb with rfl | rfl <;> omega
  · rcases hb with rfl | rfl | rfl <;> omega
  · rcases hb with rfl | rfl | rfl | rfl <;> omega

theorem utf8DecodeAux_encodeChar (c : Nat) (h : scalarOK c) (bs : List Nat) :
    utf8DecodeAux none (utf8EncodeChar c ++ bs)
      = (utf8DecodeAux none bs).map (fun s => c :: s) := by
  obtain ⟨hlt, hsur⟩ := h
  by_cases h1 : c < 128
  · simp only [utf8EncodeChar, if_pos h1, List.cons_append, List.nil_append]
    rw [utf8DecodeAux, if_pos h1]
  · by_cases h2 : c < 2048
    · simp only [utf8EncodeChar, if_neg h1, if_pos h2, List.cons_append, List.nil_append]
      rw [utf8DecodeAux, if_neg (by omega), if_neg (by omega), if_pos (by omega),
        utf8DecodeAux, if_pos (by constructor <;> omega), if_pos (by omega)]
      have hval : (192 + c / 64 - 192) * 64 + (128 + c % 64 - 128) = c := by omega
      rw [hval, if_pos ⟨by omega, by constructor <;> omega⟩]
    · by_cases h3 : c < 65536
      · simp only [utf8EncodeChar, if_neg h1, if_neg h2, if_pos h3, List.cons_append,
          List.nil_append]
        rw [utf8DecodeAux, if_neg (by omega), if_neg (by omega), if_neg (by omega),
          if_pos (by omega),
          utf8DecodeAux, if_pos (by constructor <;> omega), if_neg (by omega),
          utf8DecodeAux, if_pos (by constructor <;> omega), if_pos (by omega)]
        have hval : ((224 + c / 4096 - 224) * 64 + (128 + c / 64 % 64 - 128)) * 64
            + (128 + c % 64 - 128) = c := by omega
        rw [hval, if_pos ⟨by omega, by constructor <;> omega⟩]
      · simp only [utf8EncodeChar, if_neg h1, if_neg h2, if_neg h3, List.cons_append,
          List.nil_append]
        rw [utf8DecodeAux, if_neg (by omega), if_neg (by omega), if_neg (by omega),
          if_neg (by omega), if_pos (by omega),
          utf8DecodeAux, if_pos (by constructor <;> omega), if_neg (by omega),
          utf8DecodeAux, if_pos (by constructor <;> omega), if_neg (by omega),
          utf8DecodeAux, if_pos (by constructor <;> omega), if_pos (by omega)]
        have hval : (((240 + c / 262144 - 240) * 64 + (128 + c / 4096 % 64 - 128)) * 64
            + (128 + c / 64 % 64 - 128)) * 64 + (128 + c % 64 - 128) = c := by omega
        rw [hval, if_pos ⟨by omega, by constructor <;> omega⟩]

theorem utf8_roundtrip (s : Str) (h : ∀ c ∈ s, scalarOK c) :
    utf8Decode (utf8Encode s) = some s := by
  induction s with
  | nil => rfl
  | cons c t ih =>
    have hc : scalarOK c := h c (by simp)
    have ht : ∀ x ∈ t, scalarOK x := fun x hx => h x (by simp [hx])
    show utf8DecodeAux none (utf8Encode (c :: t)) = some (c :: t)
    have he : utf8Encode (c :: t) = utf8EncodeChar c ++ utf8Encode t := by
      simp [utf8Encode]
    have ih2 : utf8DecodeAux none (utf8Encode t) = some t := ih ht
    rw [he, utf8DecodeAux_encodeChar c hc, ih2]
    rfl

theorem utf8Encode_lt (s : Str) (h : ∀ c ∈ s, scalarOK c) : ∀ b ∈ utf8Encode s, b < 256 := by
  intro b hb
  unfold utf8Encode at hb
  obtain ⟨l, hl, hbl⟩ := List.mem_flatten.mp hb
  obtain ⟨c, hc, rfl⟩ := List.mem_map.mp hl
  exact utf8EncodeChar_lt c (h c hc).1 b hbl

/-- The full decoder pipeline of `base64UrlDecode` inverts the spec-modelled
payload encoding. -/
theorem base64UrlDecode_encode (s : Str) (h : ∀ c ∈ s, scalarOK c) :
    base64UrlDecode (base64UrlEncode (utf8Encode s)) = s := by
  simp only [base64UrlDecode, atob_encode _ (utf8Encode_lt s h), utf8_roundtrip s h]

/-! ## Lemmas: JSON string literals -/

theorem hexVal_hexDigitLower (d : Nat) (h : d < 16) : hexVal (hexDigitLower d) = some d := by
  unfold hexVal hexDigitLower
  split_ifs <;> first | (exfalso; omega) | (congr 1; omega)

theorem parseStringBody_cons_plain (c : Nat) (L : Str) (h1 : ¬ c < 32) (h2 : c ≠ 34)
    (h3 : c ≠ 92) :
    parseStringBody (c :: L) = (parseStringBody L).map (fun p => (c :: p.1, p.2)) := by
  rw [parseStringBody.eq_def]
  split <;> simp_all

theorem parseStringBody_roundtrip (s : Str) (rest : Str) :
    parseStringBody ((s.map escapeChar).flatten ++ 34 :: rest) = some (s, rest) := by
  induction s with
  | nil => simp [parseStringBody]
  | cons c t ih =>
    have hl : ((c :: t).map escapeChar).flatten ++ 34 :: rest
        = escapeChar c ++ ((t.map escapeChar).flatten ++ 34 :: rest) := by simp
    rw [hl]
    by_cases h1 : c = 34
    · subst h1
      have he : escapeChar 34 = [92, 34] := rfl
      rw [he]
      simp [parseStringBody, ih]
    · by_cases h2 : c = 92
      · subst h2
        have he : escapeChar 92 = [92, 92] := rfl
        rw [he]
        simp [parseStringBody, ih]
      · by_cases h3 : c < 32
        · have he : escapeChar c =
              [92, 117, 48, 48, hexDigitLower (c / 16), hexDigitLower (c % 16)] := by
            unfold escapeChar
            rw [if_neg h1, if_neg h2, if_pos h3]
          rw [he]
          have hv1 : hexVal (hexDigitLower (c / 16)) = some (c / 16) :=
            hexVal_hexDigitLower _ (by omega)
          have hv2 : hexVal (hexDigitLower (c % 16)) = some (c % 16) :=
            hexVal_hexDigitLower _ (by omega)
          have h48 : hexVal 48 = some 0 := rfl
          simp only [List.cons_append, List.append_eq, List.nil_append, parseStringBody,
            h48, hv1, hv2, ih]
          have hc : 0 * 4096 + 0 * 256 + c / 16 * 16 + c % 16 = c := by omega
          rw [hc]
        · have he : escapeChar c = [c] := by
            unfold escapeChar
            rw [if_neg h1, if_neg h2, if_neg h3]
          rw [he]
          simp only [List.cons_append, List.nil_append]
          rw [parseStringBody_cons_plain c _ h3 h1 h2, ih]
          rfl

/-! ## Lemmas: decimal digits -/

theorem natDigitsAux_mem (fuel : Nat) : ∀ n, ∀ d ∈ natDigitsAux fuel n, isDigitChar d = true := by
  induction fuel with
  | zero => intro n d hd; simp [natDigitsAux] at hd
  | succ f ih =>
    intro n d hd
    unfold natDigitsAux at hd
    split_ifs at hd with h
    · simp only [List.mem_cons, List.not_mem_nil, or_false] at hd
      subst hd
      simp only [isDigitChar, Bool.and_eq_true, decide_eq_true_eq]
      omega
    · rcases List.mem_append.mp hd with h2 | h2
      · exact ih _ d h2
      · simp only [List.mem_cons, List.not_mem_nil, or_false] at h2
        subst h2
        simp only [isDigitChar, Bool.and_eq_true, decide_eq_true_eq]
        omega

theorem digitsToNat_concat (ds : Str) (k : Nat) :
    digitsToNat (ds ++ [k]) = digitsToNat ds * 10 + (k - 48) := by
  simp [digitsToNat, List.foldl_append]

theorem natDigitsAux_val (fuel : Nat) : ∀ n, n < 10 ^ fuel →
    digitsToNat (natDigitsAux fuel n) = n := by
  induction fuel with
  | zero => intro n h; interval_cases n; rfl
  | succ f ih =>
    intro n h
    unfold natDigitsAux
    split_ifs with h2
    · simp [digitsToNat]
    · rw [digitsToNat_concat]
      have hdiv : n / 10 < 10 ^ f := by
        rw [Nat.div_lt_iff_lt_mul (by norm_num)]
        calc n < 10 ^ (f + 1) := h
        _ = 10 ^ f * 10 := pow_succ 10 f
      rw [ih _ hdiv]
      omega

theorem natDigits_val (n : Nat) : digitsToNat (natDigits n) = n := by
  apply natDigitsAux_val
  have h1 : n < 10 ^ n := Nat.lt_pow_self (by norm_num) n
  have h2 : 10 ^ n ≤ 10 ^ (n + 1) := Nat.pow_le_pow_right (by norm_num) (by omega)
  omega

theorem natDigits_ne_nil (n : Nat) : natDigits n ≠ [] := by
  unfold natDigits natDigitsAux
  split_ifs <;> simp

theorem natDigits_mem (n : Nat) : ∀ d ∈ natDigits n, isDigitChar d = true :=
  natDigitsAux_mem (n + 1) n

theorem parseDigits_roundtrip (n : Nat) (rest : Str)
    (htake : rest.takeWhile isDigitChar = []) (hdrop : rest.dropWhile isDigitChar = rest) :
    parseDigits (natDigits n ++ rest) = some (n, rest) := by
  have hall : ∀ d ∈ natDigits n, isDigitChar d = true := natDigits_mem n
  have ht : (natDigits n ++ rest).takeWhile isDigitChar = natDigits n := by
    rw [List.takeWhile_append]
    rw [List.takeWhile_eq_self_iff.mpr hall]
    simp [htake]
  have hd : (natDigits n ++ rest).dropWhile isDigitChar = rest := by
    rw [List.dropWhile_append]
    have : (natDigits n).dropWhile isDigitChar = [] := List.dropWhile_eq_nil_iff.mpr hall
    simp [this, hdrop]
  unfold parseDigits
  rw [ht, hd, if_neg (natDigits_ne_nil n), natDigits_val]

/-! ## Lemmas: JSON parser on rendered values -/

theorem skipWs_not (c : Nat) (t : Str) (h : isWsChar c = false) : skipWs (c :: t) = c :: t := by
  simp [skipWs, List.dropWhile_cons, h]

theorem isWsChar_false (c : Nat) (h : 33 ≤ c) : isWsChar c = false := by
  simp only [isWsChar, Bool.or_eq_false_iff, beq_eq_false_iff_ne]
  omega

theorem parseJ_top_str (f : Nat) (s rest : Str) :
    parseJ (f + 1) PMode.top (renderString s ++ rest) = some (PRes.val (Json.str s), rest) := by
  have hshape : renderString s ++ rest = 34 :: ((s.map escapeChar).flatten ++ 34 :: rest) := by
    simp [renderString]
  rw [hshape]
  have hws : skipWs (34 :: ((s.map escapeChar).flatten ++ 34 :: rest))
      = 34 :: ((s.map escapeChar).flatten ++ 34 :: rest) :=
    skipWs_not _ _ (isWsChar_false _ (by omega))
  simp [parseJ, hws, parseStringBody_roundtrip]

theorem parseJ_top_int (f : Nat) (n : Int) (rest : Str)
    (htake : rest.takeWhile isDigitChar = []) (hdrop : rest.dropWhile isDigitChar = rest) :
    parseJ (f + 1) PMode.top (renderInt n ++ rest) = some (PRes.val (Json.num n), rest) := by
  unfold renderInt
  split_ifs with hn
  · have hshape : (45 :: natDigits (-n).toNat) ++ rest = 45 :: (natDigits (-n).toNat ++ rest) :=
      rfl
    rw [hshape]
    have hws : skipWs (45 :: (natDigits (-n).toNat ++ rest))
        = 45 :: (natDigits (-n).toNat ++ rest) := skipWs_not _ _ (isWsChar_false _ (by omega))
    have hcast : ((-n).toNat : Int) = -n := Int.toNat_of_nonneg (by omega)
    simp [parseJ, hws, parseDigits_roundtrip _ _ htake hdrop, hcast]
  · obtain ⟨d, ds, hds⟩ : ∃ d ds, natDigits n.toNat = d :: ds := by
      cases h : natDigits n.toNat with
      | nil => exact absurd h (natDigits_ne_nil _)
      | cons d ds => exact ⟨d, ds, rfl⟩
    have hdig : isDigitChar d = true := natDigits_mem n.toNat d (by rw [hds]; simp)
    have hd2 : 48 ≤ d ∧ d ≤ 57 := by
      simpa [isDigitChar, Bool.and_eq_true, decide_eq_true_eq] using hdig
    rw [hds]
    have hshape : (d :: ds) ++ rest = d :: (ds ++ rest) := rfl
    rw [hshape]
    have hws : skipWs (d :: (ds ++ rest)) = d :: (ds ++ rest) :=
      skipWs_not _ _ (isWsChar_false _ (by omega))
    simp only [parseJ, hws]
    rw [if_neg (by omega), if_neg (by omega), if_neg (by omega), if_neg (by omega),
      if_neg (by omega), if_neg (by omega), if_neg (by omega), if_pos hdig]
    have hpd : parseDigits (d :: (ds ++ rest)) = some (n.toNat, rest) := by
      rw [← hshape, ← hds]
      exact parseDigits_roundtrip _ _ htake hdrop
    rw [hpd]
    have hcast : (n.toNat : Int) = n := Int.toNat_of_nonneg (by omega)
    simp [hcast]

theorem groupsTail_cons (g : Str) (t : List Str) :
    groupsTail (g :: t) = 44 :: (renderString g ++ groupsTail t) := by
  simp [groupsTail]

theorem renderGroups_eq (g : Str) (t : List Str) :
    renderGroups (g :: t) = renderString g ++ groupsTail t := by
  induction t generalizing g with
  | nil => simp [renderGroups, groupsTail]
  | cons h t2 ih =>
    show renderString g ++ 44 :: renderGroups (h :: t2) = _
    rw [ih h, groupsTail_cons]

theorem parseJ_elems_groups (gs : List Str) : ∀ f, gs.length + 1 ≤ f → ∀ rest,
    parseJ f PMode.elems (groupsTail gs ++ 93 :: rest)
      = some (PRes.elemsR (gs.map Json.str), rest) := by
  induction gs with
  | nil =>
    intro f hf rest
    obtain ⟨f2, rfl⟩ : ∃ f2, f = f2 + 1 := ⟨f - 1, by omega⟩
    have hws : skipWs (93 :: rest) = 93 :: rest := skipWs_not _ _ (isWsChar_false _ (by omega))
    show parseJ (f2 + 1) PMode.elems (groupsTail [] ++ 93 :: rest) = _
    simp [groupsTail, parseJ, hws]
  | cons g t ih =>
    intro f hf rest
    obtain ⟨f2, rfl⟩ : ∃ f2, f = f2 + 1 := ⟨f - 1, by omega⟩
    obtain ⟨f3, hff⟩ : ∃ f3, f2 = f3 + 1 := ⟨f2 - 1, by simp at hf; omega⟩
    rw [groupsTail_cons]
    have hsh : (44 :: (renderString g ++ groupsTail t)) ++ 93 :: rest
        = 44 :: (renderString g ++ (groupsTail t ++ 93 :: rest)) := by simp
    rw [hsh]
    have hws : skipWs (44 :: (renderString g ++ (groupsTail t ++ 93 :: rest)))
        = 44 :: (renderString g ++ (groupsTail t ++ 93 :: rest)) :=
      skipWs_not _ _ (isWsChar_false _ (by omega))
    have hstr : parseJ f2 PMode.top (renderString g ++ (groupsTail t ++ 93 :: rest))
        = some (PRes.val (Json.str g), groupsTail t ++ 93 :: rest) := by
      rw [hff]; exact parseJ_top_str f3 g (groupsTail t ++ 93 :: rest)
    have helems := ih f2 (by simp at hf ⊢; omega) rest
    simp [parseJ, hws, hstr, helems]

theorem parseJ_top_groups (f : Nat) (gs : List Str) (hf : gs.length + 1 ≤ f) (rest : Str) :
    parseJ (f + 1) PMode.top (91 :: (renderGroups gs ++ 93 :: rest))
      = some (PRes.val (Json.arr (gs.map Json.str)), rest) := by
  cases gs with
  | nil =>
    have hws : skipWs (91 :: 93 :: rest) = 91 :: 93 :: rest :=
      skipWs_not _ _ (isWsChar_false _ (by omega))
    have hws2 : skipWs (93 :: rest) = 93 :: rest := skipWs_not _ _ (isWsChar_false _ (by omega))
    simp [renderGroups, parseJ, hws, hws2]
  | cons g t =>
    obtain ⟨f2, hff⟩ : ∃ f2, f = f2 + 1 := ⟨f - 1, by omega⟩
    rw [renderGroups_eq]
    have hsh : (renderString g ++ groupsTail t) ++ 93 :: rest
        = renderString g ++ (groupsTail t ++ 93 :: rest) := by simp
    rw [hsh]
    have hshape2 : renderString g ++ (groupsTail t ++ 93 :: rest)
        = 34 :: ((g.map escapeChar).flatten ++ 34 :: (groupsTail t ++ 93 :: rest)) := by
      simp [renderString]
    rw [hshape2]
    have hws : skipWs (91 :: 34 :: ((g.map escapeChar).flatten ++ 34 :: (groupsTail t ++ 93 :: rest)))
        = 91 :: 34 :: ((g.map escapeChar).flatten ++ 34 :: (groupsTail t ++ 93 :: rest)) :=
      skipWs_not _ _ (isWsChar_false _ (by omega))
    have hq : skipWs (34 :: ((g.map escapeChar).flatten ++ 34 :: (groupsTail t ++ 93 :: rest)))
        = 34 :: ((g.map escapeChar).flatten ++ 34 :: (groupsTail t ++ 93 :: rest)) :=
      skipWs_not _ _ (isWsChar_false _ (by omega))
    have hstr : parseJ f PMode.top
        (34 :: ((g.map escapeChar).flatten ++ 34 :: (groupsTail t ++ 93 :: rest)))
        = some (PRes.val (Json.str g), groupsTail t ++ 93 :: rest) := by
      rw [← hshape2, hff]; exact parseJ_top_str f2 g (groupsTail t ++ 93 :: rest)
    have helems := parseJ_elems_groups t f (by simp at hf ⊢; omega) rest
    simp [parseJ, hws, hq, hstr, helems]

theorem parseJ_member (f : Nat) (k body r : Str) (v : Json)
    (hv : parseJ f PMode.top body = some (PRes.val v, r)) :
    parseJ (f + 1) PMode.member (renderString k ++ (58 :: body))
      = some (PRes.memberR (k, v), r) := by
  have hshape : renderString k ++ (58 :: body)
      = 34 :: ((k.map escapeChar).flatten ++ 34 :: (58 :: body)) := by simp [renderString]
  rw [hshape]
  have hws : skipWs (34 :: ((k.map escapeChar).flatten ++ 34 :: (58 :: body)))
      = 34 :: ((k.map escapeChar).flatten ++ 34 :: (58 :: body)) :=
    skipWs_not _ _ (isWsChar_false _ (by omega))
  have hws2 : skipWs (58 :: body) = 58 :: body := skipWs_not _ _ (isWsChar_false _ (by omega))
  simp [parseJ, hws, hws2, parseStringBody_roundtrip, hv]

theorem parseJ_members_nil (f : Nat) (rest : Str) :
    parseJ (f + 1) PMode.members (125 :: rest) = some (PRes.membersR [], rest) := by
  have hws : skipWs (125 :: rest) = 125 :: rest := skipWs_not _ _ (isWsChar_false _ (by omega))
  simp [parseJ, hws]

theorem parseJ_members_cons (f : Nat) (s r r2 : Str) (kv : Str × Json)
    (kvs : List (Str × Json))
    (h1 : parseJ f PMode.member s = some (PRes.memberR kv, r))
    (h2 : parseJ f PMode.members r = some (PRes.membersR kvs, r2)) :
    parseJ (f + 1) PMode.members (44 :: s) = some (PRes.membersR (kv :: kvs), r2) := by
  have hws : skipWs (44 :: s) = 44 :: s := skipWs_not _ _ (isWsChar_false _ (by omega))
  simp [parseJ, hws, h1, h2]

theorem parseJ_top_obj (f : Nat) (s2 r r2 : Str) (kv : Str × Json) (kvs : List (Str × Json))
    (h1 : parseJ f PMode.member (34 :: s2) = some (PRes.memberR kv, r))
    (h2 : parseJ f PMode.members r = some (PRes.membersR kvs, r2)) :
    parseJ (f + 1) PMode.top (123 :: 34 :: s2) = some (PRes.val (Json.obj (kv :: kvs)), r2) := by
  have hws : skipWs (123 :: 34 :: s2) = 123 :: 34 :: s2 :=
    skipWs_not _ _ (isWsChar_false _ (by omega))
  have hws2 : skipWs (34 :: s2) = 34 :: s2 := skipWs_not _ _ (isWsChar_false _ (by omega))
  simp [parseJ, hws, hws2, h1, h2]

/-- The spec-modelled serialization of a claims record parses back to its
JSON object, for any sufficient fuel offset. -/
theorem parseJ_renderClaims (c : ClaimsRecord) (rest : Str) (f8 : Nat)
    (hg : c.groups.length ≤ f8 + 1) :
    parseJ (f8 + 8) PMode.top (renderClaims c ++ rest)
      = some (PRes.val (claimsToJson c), rest) := by
  have hdig125 : (125 :: rest).takeWhile isDigitChar = [] := by
    simp [List.takeWhile_cons, isDigitChar]
  have hdrop125 : (125 :: rest).dropWhile isDigitChar = 125 :: rest := by
    simp [List.dropWhile_cons, isDigitChar]
  have hdig44 : (44 :: (renderString (strLit "exp") ++ (58 :: (renderInt c.exp ++ (125 :: rest))))).takeWhile isDigitChar = [] := by
    simp [List.takeWhile_cons, isDigitChar]
  have hdrop44 : (44 :: (renderString (strLit "exp") ++ (58 :: (renderInt c.exp ++ (125 :: rest))))).dropWhile isDigitChar = 44 :: (renderString (strLit "exp") ++ (58 :: (renderInt c.exp ++ (125 :: rest)))) := by
    simp [List.dropWhile_cons, isDigitChar]
  have hv_exp : parseJ (f8 + 1) PMode.top (renderInt c.exp ++ (125 :: rest))
      = some (PRes.val (Json.num c.exp), 125 :: rest) :=
    parseJ_top_int f8 c.exp (125 :: rest) hdig125 hdrop125
  have hm_exp : parseJ (f8 + 2) PMode.member (renderString (strLit "exp") ++ (58 :: (renderInt c.exp ++ (125 :: rest))))
      = some (PRes.memberR (strLit "exp", Json.num c.exp), 125 :: rest) :=
    parseJ_member (f8 + 1) _ _ _ _ hv_exp
  have hms6 : parseJ (f8 + 2) PMode.members (125 :: rest)
      = some (PRes.membersR [], rest) := parseJ_members_nil (f8 + 1) rest
  have hms5 : parseJ (f8 + 3) PMode.members (44 :: (renderString (strLit "exp") ++ (58 :: (renderInt c.exp ++ (125 :: rest)))))
      = some (PRes.membersR [(strLit "exp", Json.num c.exp)], rest) :=
    parseJ_members_cons (f8 + 2) _ _ _ _ _ hm_exp hms6
  have hv_iat : parseJ (f8 + 2) PMode.top (renderInt c.iat ++ (44 :: (renderString (strLit "exp") ++ (58 :: (renderInt c.exp ++ (125 :: rest))))))
      = some (PRes.val (Json.num c.iat), 44 :: (renderString (strLit "exp") ++ (58 :: (renderInt c.exp ++ (125 :: rest))))) :=
    parseJ_top_int (f8 + 1) c.iat (44 :: (renderString (strLit "exp") ++ (58 :: (renderInt c.exp ++ (125 :: rest))))) hdig44 hdrop44
  have hm_iat : parseJ (f8 + 3) PMode.member (renderString (strLit "iat") ++ (58 :: (renderInt c.iat ++ (44 :: (renderString (strLit "exp") ++ (58 :: (renderInt c.exp ++ (125 :: rest))))))))
      = some (PRes.memberR (strLit "iat", Json.num c.iat), 44 :: (renderString (strLit "exp") ++ (58 :: (renderInt c.exp ++ (125 :: rest))))) :=
    parseJ_member (f8 + 2) _ _ _ _ hv_iat
  have hms4 : parseJ (f8 + 4) PMode.members (44 :: (renderString (strLit "iat") ++ (58 :: (renderInt c.iat ++ (44 :: (renderString (strLit "exp") ++ (58 :: (renderInt c.exp ++ (125 :: rest)))))))))
      = some (PRes.membersR [(strLit "iat", Json.num c.iat), (strLit "exp", Json.num c.exp)], rest) :=
    parseJ_members_cons (f8 + 3) _ _ _ _ _ hm_iat hms5
  have hv_groups : parseJ (f8 + 3) PMode.top (91 :: (renderGroups c.groups ++ 93 :: (44 :: (renderString (strLit "iat") ++ (58 :: (renderInt c.iat ++ (44 :: (renderString (strLit "exp") ++ (58 :: (renderInt c.exp ++ (125 :: rest)))))))))))
      = some (PRes.val (Json.arr (c.groups.map Json.str)), 44 :: (renderString (strLit "iat") ++ (58 :: (renderInt c.iat ++ (44 :: (renderString (strLit "exp") ++ (58 :: (renderInt c.exp ++ (125 :: rest))))))))) :=
    parseJ_top_groups (f8 + 2) c.groups (by omega) (44 :: (renderString (strLit "iat") ++ (58 :: (renderInt c.iat ++ (44 :: (renderString (strLit "exp") ++ (58 :: (renderInt c.exp ++ (125 :: rest)))))))))
  have hm_groups : parseJ (f8 + 4) PMode.member (renderString (strLit "groups") ++ (58 :: (91 :: (renderGroups c.groups ++ 93 :: (44 :: (renderString (strLit "iat") ++ (58 :: (renderInt c.iat ++ (44 :: (renderString (strLit "exp") ++ (58 :: (renderInt c.exp ++ (125 :: rest)))))))))))))
      = some (PRes.memberR (strLit "groups", Json.arr (c.groups.map Json.str)), 44 :: (renderString (strLit "iat") ++ (58 :: (renderInt c.iat ++ (44 :: (renderString (strLit "exp") ++ (58 :: (renderInt c.exp ++ (125 :: rest))))))))) :=
    parseJ_member (f8 + 3) _ _ _ _ hv_groups
  have hms3 : parseJ (f8 + 5) PMode.members (44 :: (renderString (strLit "groups") ++ (58 :: (91 :: (renderGroups c.groups ++ 93 :: (44 :: (renderString (strLit "iat") ++ (58 :: (renderInt c.iat ++ (44 :: (renderString (strLit "exp") ++ (58 :: (renderInt c.exp ++ (125 :: rest))))))))))))))
      = some (PRes.membersR [(strLit "groups", Json.arr (c.groups.map Json.str)), (strLit "iat", Json.num c.iat), (strLit "exp", Json.num c.exp)], rest) :=
    parseJ_members_cons (f8 + 4) _ _ _ _ _ hm_groups hms4
  have hv_email : parseJ (f8 + 4) PMode.top (renderString c.email ++ (44 :: (renderString (strLit "groups") ++ (58 :: (91 :: (renderGroups c.groups ++ 93 :: (44 :: (renderString (strLit "iat") ++ (58 :: (renderInt c.iat ++ (44 :: (renderString (strLit "exp") ++ (58 :: (renderInt c.exp ++ (125 :: rest)))))))))))))))
      = some (PRes.val (Json.str c.email), 44 :: (renderString (strLit "groups") ++ (58 :: (91 :: (renderGroups c.groups ++ 93 :: (44 :: (renderString (strLit "iat") ++ (58 :: (renderInt c.iat ++ (44 :: (renderString (strLit "exp") ++ (58 :: (renderInt c.exp ++ (125 :: rest)))))))))))))) :=
    parseJ_top_str (f8 + 3) c.email (44 :: (renderString (strLit "groups") ++ (58 :: (91 :: (renderGroups c.groups ++ 93 :: (44 :: (renderString (strLit "iat") ++ (58 :: (renderInt c.iat ++ (44 :: (renderString (strLit "exp") ++ (58 :: (renderInt c.exp ++ (125 :: rest))))))))))))))
  have hm_email : parseJ (f8 + 5) PMode.member (renderString (strLit "email") ++ (58 :: (renderString c.email ++ (44 :: (renderString (strLit "groups") ++ (58 :: (91 :: (renderGroups c.groups ++ 93 :: (44 :: (renderString (strLit "iat") ++ (58 :: (renderInt c.iat ++ (44 :: (renderString (strLit "exp") ++ (58 :: (renderInt c.exp ++ (125 :: rest)))))))))))))))))
      = some (PRes.memberR (strLit "email", Json.str c.email), 44 :: (renderString (strLit "groups") ++ (58 :: (91 :: (renderGroups c.groups ++ 93 :: (44 :: (renderString (strLit "iat") ++ (58 :: (renderInt c.iat ++ (44 :: (renderString (strLit "exp") ++ (58 :: (renderInt c.exp ++ (125 :: rest)))))))))))))) :=
    parseJ_member (f8 + 4) _ _ _ _ hv_email
  have hms2 : parseJ (f8 + 6) PMode.members (44 :: (renderString (strLit "email") ++ (58 :: (renderString c.email ++ (44 :: (renderString (strLit "groups") ++ (58 :: (91 :: (renderGroups c.groups ++ 93 :: (44 :: (renderString (strLit "iat") ++ (58 :: (renderInt c.iat ++ (44 :: (renderString (strLit "exp") ++ (58 :: (renderInt c.exp ++ (125 :: rest))))))))))))))))))
      = some (PRes.membersR [(strLit "email", Json.str c.email), (strLit "groups", Json.arr (c.groups.map Json.str)), (strLit "iat", Json.num c.iat), (strLit "exp", Json.num c.exp)], rest) :=
    parseJ_members_cons (f8 + 5) _ _ _ _ _ hm_email hms3
  have hv_dn : parseJ (f8 + 5) PMode.top (renderString c.display_name ++ (44 :: (renderString (strLit "email") ++ (58 :: (renderString c.email ++ (44 :: (renderString (strLit "groups") ++ (58 :: (91 :: (renderGroups c.groups ++ 93 :: (44 :: (renderString (strLit "iat") ++ (58 :: (renderInt c.iat ++ (44 :: (renderString (strLit "exp") ++ (58 :: (renderInt c.exp ++ (125 :: rest)))))))))))))))))))
      = some (PRes.val (Json.str c.display_name), 44 :: (renderString (strLit "email") ++ (58 :: (renderString c.email ++ (44 :: (renderString (strLit "groups") ++ (58 :: (91 :: (renderGroups c.groups ++ 93 :: (44 :: (renderString (strLit "iat") ++ (58 :: (renderInt c.iat ++ (44 :: (renderString (strLit "exp") ++ (58 :: (renderInt c.exp ++ (125 :: rest)))))))))))))))))) :=
    parseJ_top_str (f8 + 4) c.display_name (44 :: (renderString (strLit "email") ++ (58 :: (renderString c.email ++ (44 :: (renderString (strLit "groups") ++ (58 :: (91 :: (renderGroups c.groups ++ 93 :: (44 :: (renderString (strLit "iat") ++ (58 :: (renderInt c.iat ++ (44 :: (renderString (strLit "exp") ++ (58 :: (renderInt c.exp ++ (125 :: rest))))))))))))))))))
  have hm_dn : parseJ (f8 + 6) PMode.member (renderString (strLit "display_name") ++ (58 :: (renderString c.display_name ++ (44 :: (renderString (strLit "email") ++ (58 :: (renderString c.email ++ (44 :: (renderString (strLit "groups") ++ (58 :: (91 :: (renderGroups c.groups ++ 93 :: (44 :: (renderString (strLit "iat") ++ (58 :: (renderInt c.iat ++ (44 :: (renderString (strLit "exp") ++ (58 :: (renderInt c.exp ++ (125 :: rest)))))))))))))))))))))
      = some (PRes.memberR (strLit "display_name", Json.str c.display_name), 44 :: (renderString (strLit "email") ++ (58 :: (renderString c.email ++ (44 :: (renderString (strLit "groups") ++ (58 :: (91 :: (renderGroups c.groups ++ 93 :: (44 :: (renderString (strLit "iat") ++ (58 :: (renderInt c.iat ++ (44 :: (renderString (strLit "exp") ++ (58 :: (renderInt c.exp ++ (125 :: rest)))))))))))))))))) :=
    parseJ_member (f8 + 5) _ _ _ _ hv_dn
  have hms1 : parseJ (f8 + 7) PMode.members (44 :: (renderString (strLit "display_name") ++ (58 :: (renderString c.display_name ++ (44 :: (renderString (strLit "email") ++ (58 :: (renderString c.email ++ (44 :: (renderString (strLit "groups") ++ (58 :: (91 :: (renderGroups c.groups ++ 93 :: (44 :: (renderString (strLit "iat") ++ (58 :: (renderInt c.iat ++ (44 :: (renderString (strLit "exp") ++ (58 :: (renderInt c.exp ++ (125 :: rest))))))))))))))))))))))
      = some (PRes.membersR [(strLit "display_name", Json.str c.display_name), (strLit "email", Json.str c.email), (strLit "groups", Json.arr (c.groups.map Json.str)), (strLit "iat", Json.num c.iat), (strLit "exp", Json.num c.exp)], rest) :=
    parseJ_members_cons (f8 + 6) _ _ _ _ _ hm_dn hms2
  have hv_sub : parseJ (f8 + 6) PMode.top (renderString c.sub ++ (44 :: (renderString (strLit "display_name") ++ (58 :: (renderString c.display_name ++ (44 :: (renderString (strLit "email") ++ (58 :: (renderString c.email ++ (44 :: (renderString (strLit "groups") ++ (58 :: (91 :: (renderGroups c.groups ++ 93 :: (44 :: (renderString (strLit "iat") ++ (58 :: (renderInt c.iat ++ (44 :: (renderString (strLit "exp") ++ (58 :: (renderInt c.exp ++ (125 :: rest)))))))))))))))))))))))
      = some (PRes.val (Json.str c.sub), 44 :: (renderString (strLit "display_name") ++ (58 :: (renderString c.display_name ++ (44 :: (renderString (strLit "email") ++ (58 :: (renderString c.email ++ (44 :: (renderString (strLit "groups") ++ (58 :: (91 :: (renderGroups c.groups ++ 93 :: (44 :: (renderString (strLit "iat") ++ (58 :: (renderInt c.iat ++ (44 :: (renderString (strLit "exp") ++ (58 :: (renderInt c.exp ++ (125 :: rest)))))))))))))))))))))) :=
    parseJ_top_str (f8 + 5) c.sub (44 :: (renderString (strLit "display_name") ++ (58 :: (renderString c.display_name ++ (44 :: (renderString (strLit "email") ++ (58 :: (renderString c.email ++ (44 :: (renderString (strLit "groups") ++ (58 :: (91 :: (renderGroups c.groups ++ 93 :: (44 :: (renderString (strLit "iat") ++ (58 :: (renderInt c.iat ++ (44 :: (renderString (strLit "exp") ++ (58 :: (renderInt c.exp ++ (125 :: rest))))))))))))))))))))))
  have hm_sub : parseJ (f8 + 7) PMode.member (renderString (strLit "sub") ++ (58 :: (renderString c.sub ++ (44 :: (renderString (strLit "display_name") ++ (58 :: (renderString c.display_name ++ (44 :: (renderString (strLit "email") ++ (58 :: (renderString c.email ++ (44 :: (renderString (strLit "groups") ++ (58 :: (91 :: (renderGroups c.groups ++ 93 :: (44 :: (renderString (strLit "iat") ++ (58 :: (renderInt c.iat ++ (44 :: (renderString (strLit "exp") ++ (58 :: (renderInt c.exp ++ (125 :: rest)))))))))))))))))))))))))
      = some (PRes.memberR (strLit "sub", Json.str c.sub), 44 :: (renderString (strLit "display_name") ++ (58 :: (renderString c.display_name ++ (44 :: (renderString (strLit "email") ++ (58 :: (renderString c.email ++ (44 :: (renderString (strLit "groups") ++ (58 :: (91 :: (renderGroups c.groups ++ 93 :: (44 :: (renderString (strLit "iat") ++ (58 :: (renderInt c.iat ++ (44 :: (renderString (strLit "exp") ++ (58 :: (renderInt c.exp ++ (125 :: rest)))))))))))))))))))))) :=
    parseJ_member (f8 + 6) _ _ _ _ hv_sub
  have hsubshape : (renderString (strLit "sub") ++ (58 :: (renderString c.sub ++ (44 :: (renderString (strLit "display_name") ++ (58 :: (renderString c.display_name ++ (44 :: (renderString (strLit "email") ++ (58 :: (renderString c.email ++ (44 :: (renderString (strLit "groups") ++ (58 :: (91 :: (renderGroups c.groups ++ 93 :: (44 :: (renderString (strLit "iat") ++ (58 :: (renderInt c.iat ++ (44 :: (renderString (strLit "exp") ++ (58 :: (renderInt c.exp ++ (125 :: rest)))))))))))))))))))))))))
      = 34 :: (((strLit "sub").map escapeChar).flatten
          ++ 34 :: (58 :: (renderString c.sub ++ (44 :: (renderString (strLit "display_name") ++ (58 :: (renderString c.display_name ++ (44 :: (renderString (strLit "email") ++ (58 :: (renderString c.email ++ (44 :: (renderString (strLit "groups") ++ (58 :: (91 :: (renderGroups c.groups ++ 93 :: (44 :: (renderString (strLit "iat") ++ (58 :: (renderInt c.iat ++ (44 :: (renderString (strLit "exp") ++ (58 :: (renderInt c.exp ++ (125 :: rest))))))))))))))))))))))))) := by
    simp [renderString]
  rw [hsubshape] at hm_sub
  have hwhole : renderClaims c ++ rest
      = 123 :: 34 :: (((strLit "sub").map escapeChar).flatten
          ++ 34 :: (58 :: (renderString c.sub ++ (44 :: (renderString (strLit "display_name") ++ (58 :: (renderString c.display_name ++ (44 :: (renderString (strLit "email") ++ (58 :: (renderString c.email ++ (44 :: (renderString (strLit "groups") ++ (58 :: (91 :: (renderGroups c.groups ++ 93 :: (44 :: (renderString (strLit "iat") ++ (58 :: (renderInt c.iat ++ (44 :: (renderString (strLit "exp") ++ (58 :: (renderInt c.exp ++ (125 :: rest))))))))))))))))))))))))) := by
    rw [← hsubshape]
    simp [renderClaims, List.append_assoc]
  rw [hwhole]
  have hobj := parseJ_top_obj (f8 + 7) _ _ _ _ _ hm_sub hms1
  rw [hobj]
  rfl

/-! ## Lemmas: top-level parse of a rendered claims record -/

theorem renderString_len (s : Str) : 2 ≤ (renderString s).length := by
  simp [renderString]

theorem renderGroups_len (gs : List Str) : gs.length ≤ (renderGroups gs).length := by
  induction gs using renderGroups.induct with
  | case1 => simp [renderGroups]
  | case2 g =>
    have := renderString_len g
    show (1 : Nat) ≤ (renderGroups [g]).length
    show (1 : Nat) ≤ (renderString g).length
    omega
  | case3 g rest hne ih =>
    obtain ⟨h, t, rfl⟩ : ∃ h t, rest = h :: t := by
      cases rest with
      | nil => exact absurd rfl hne
      | cons h t => exact ⟨h, t, rfl⟩
    have := renderString_len g
    have hshow : renderGroups (g :: h :: t) = renderString g ++ 44 :: renderGroups (h :: t) :=
      rfl
    show (g :: h :: t).length ≤ (renderGroups (g :: h :: t)).length
    rw [hshow]
    simp only [List.length_append, List.length_cons] at ih ⊢
    omega

theorem renderClaims_len (c : ClaimsRecord) :
    c.groups.length + 8 ≤ (renderClaims c).length + 1 := by
  have h1 := renderString_len c.sub
  have h2 := renderString_len c.display_name
  have h3 := renderString_len c.email
  have h4 := renderGroups_len c.groups
  simp only [renderClaims, List.length_append, List.length_cons]
  have k1 : (renderString (strLit "sub")).length = 5 := rfl
  have k2 : (renderString (strLit "display_name")).length = 14 := rfl
  have k3 : (renderString (strLit "email")).length = 7 := rfl
  have k4 : (renderString (strLit "groups")).length = 8 := rfl
  have k5 : (renderString (strLit "iat")).length = 5 := rfl
  have k6 : (renderString (strLit "exp")).length = 5 := rfl
  rw [k1, k2, k3, k4, k5, k6]
  omega

theorem JsonParse_renderClaims (c : ClaimsRecord) :
    Json.parse (renderClaims c) = some (claimsToJson c) := by
  have hlen := renderClaims_len c
  unfold Json.parse
  obtain ⟨f8, hf8⟩ : ∃ f8, (renderClaims c).length + 1 = f8 + 8 :=
    ⟨(renderClaims c).length - 7, by omega⟩
  rw [hf8]
  have hp := parseJ_renderClaims c [] f8 (by omega)
  rw [List.append_nil] at hp
  rw [hp]
  rfl

/-! ## Lemmas: character validity of rendered claims -/

theorem renderString_scalars (s : Str) (hs : strScalars s) :
    ∀ ch ∈ renderString s, scalarOK ch := by
  intro ch hch
  unfold renderString at hch
  rcases List.mem_cons.mp hch with rfl | hch2
  · exact ⟨by omega, by omega⟩
  rcases List.mem_append.mp hch2 with h | hq
  case inr =>
    have hq2 : ch = 34 := by simpa using hq
    subst hq2
    exact ⟨by omega, by omega⟩
  · obtain ⟨l, hl, hchl⟩ := List.mem_flatten.mp h
    obtain ⟨c0, hc0, rfl⟩ := List.mem_map.mp hl
    unfold escapeChar at hchl
    split_ifs at hchl with e1 e2 e3
    · simp only [List.mem_cons, List.not_mem_nil, or_false] at hchl
      rcases hchl with rfl | rfl <;> exact ⟨by omega, by omega⟩
    · simp only [List.mem_cons, List.not_mem_nil, or_false] at hchl
      rcases hchl with rfl | rfl <;> exact ⟨by omega, by omega⟩
    · simp only [List.mem_cons, List.not_mem_nil, or_false] at hchl
      have hh : ∀ d, d < 16 → scalarOK (hexDigitLower d) := by
        intro d hd
        unfold hexDigitLower
        split_ifs <;> exact ⟨by omega, by omega⟩
      rcases hchl with rfl | rfl | rfl | rfl | rfl | rfl
      · exact ⟨by omega, by omega⟩
      · exact ⟨by omega, by omega⟩
      · exact ⟨by omega, by omega⟩
      · exact ⟨by omega, by omega⟩
      · exact hh _ (by omega)
      · exact hh _ (by omega)
    · simp only [List.mem_cons, List.not_mem_nil, or_false] at hchl
      subst hchl
      exact hs _ hc0

theorem renderInt_scalars (n : Int) : ∀ ch ∈ renderInt n, scalarOK ch := by
  intro ch hch
  unfold renderInt at hch
  have hdig : ∀ m : Nat, ch ∈ natDigits m → scalarOK ch := by
    intro m hm
    have := natDigits_mem m ch hm
    simp only [isDigitChar, Bool.and_eq_true, decide_eq_true_eq] at this
    exact ⟨by omega, by omega⟩
  split_ifs at hch with hn
  · simp only [List.mem_cons] at hch
    rcases hch with rfl | h
    · exact ⟨by omega, by omega⟩
    · exact hdig _ h
  · exact hdig _ hch

theorem renderGroups_scalars (gs : List Str) (hg : ∀ g ∈ gs, strScalars g) :
    ∀ ch ∈ renderGroups gs, scalarOK ch := by
  induction gs using renderGroups.induct with
  | case1 => simp [renderGroups]
  | case2 g =>
    intro ch hch
    exact renderString_scalars g (hg g (by simp)) ch (by simpa [renderGroups] using hch)
  | case3 g rest hne ih =>
    obtain ⟨h, t, rfl⟩ : ∃ h t, rest = h :: t := by
      cases rest with
      | nil => exact absurd rfl hne
      | cons h t => exact ⟨h, t, rfl⟩
    intro ch hch
    have hshow : renderGroups (g :: h :: t) = renderString g ++ 44 :: renderGroups (h :: t) :=
      rfl
    rw [hshow] at hch
    simp only [List.mem_append, List.mem_cons] at hch
    rcases hch with hh | rfl | hh
    · exact renderString_scalars g (hg g (by simp)) ch hh
    · exact ⟨by omega, by omega⟩
    · exact ih (fun g2 hg2 => hg g2 (by simp [hg2])) ch hh

theorem renderClaims_scalars (c : ClaimsRecord) (h : claimsOK c) :
    ∀ ch ∈ renderClaims c, scalarOK ch := by
  obtain ⟨h1, h2, h3, h4⟩ := h
  simp only [renderClaims, List.cons_append, List.append_assoc, List.forall_mem_cons,
    List.forall_mem_append]
  repeat' apply And.intro
  all_goals first
    | exact renderString_scalars _ h1
    | exact renderString_scalars _ h2
    | exact renderString_scalars _ h3
    | exact renderGroups_scalars _ h4
    | exact renderInt_scalars _
    | decide

/-! ## Lemmas: the payload round-trip through the decoder -/

theorem encodeClaims_ne_46 (c : ClaimsRecord) : 46 ∉ encodeClaims c := by
  intro h
  unfold encodeClaims at h
  rw [base64UrlEncode_eq_chunks] at h
  obtain ⟨v, hv⟩ := b64uChunks_mem _ _ h
  exact substToUrl_b64Char_ne_46 v hv.symm

theorem renderClaims_cons (c : ClaimsRecord) : ∃ tl, renderClaims c = 123 :: tl :=
  ⟨(renderClaims c).tail, rfl⟩

/-- Decoding a credential whose second segment carries the encoded claims
record returns exactly the claims object, independently of the storage, the
header and the signature. -/
theorem payload_roundtrip (st : Storage) (c : ClaimsRecord) (hdr sig : Str)
    (hc : claimsOK c) (hh : 46 ∉ hdr) :
    getTokenPayload st (some (mkCredential hdr c sig)) = some (claimsToJson c) := by
  have hscal : ∀ ch ∈ renderClaims c, scalarOK ch := renderClaims_scalars c hc
  have hshape : mkCredential hdr c sig = hdr ++ 46 :: (encodeClaims c ++ 46 :: sig) := by
    simp [mkCredential]
  have hsplit : splitDot (mkCredential hdr c sig)
      = hdr :: encodeClaims c :: splitDot sig := by
    rw [hshape, splitDot_sep _ _ hh, splitDot_sep _ _ (encodeClaims_ne_46 c)]
  have hne : mkCredential hdr c sig ≠ [] := by
    rw [hshape]
    cases hdr <;> simp
  have hlen2 : ¬ (splitDot (mkCredential hdr c sig)).length < 2 := by
    rw [hsplit]
    simp
  have hseg : (splitDot (mkCredential hdr c sig))[1]! = encodeClaims c := by
    rw [hsplit]
    rw [List.getElem!_cons_succ, List.getElem!_cons_zero]
  have hdec : base64UrlDecode (encodeClaims c) = renderClaims c := by
    unfold encodeClaims
    exact base64UrlDecode_encode _ hscal
  unfold getTokenPayload
  show (if mkCredential hdr c sig = [] then none
      else if (splitDot (mkCredential hdr c sig)).length < 2 then none
      else match base64UrlDecode (splitDot (mkCredential hdr c sig))[1]! with
        | [] => none
        | json => Json.parse json) = some (claimsToJson c)
  rw [if_neg hne, if_neg hlen2, hseg, hdec]
  obtain ⟨tl, htl⟩ := renderClaims_cons c
  rw [htl]
  show Json.parse (123 :: tl) = some (claimsToJson c)
  rw [← htl]
  exact JsonParse_renderClaims c

theorem expOf_claimsToJson (c : ClaimsRecord) : expOf (claimsToJson c) = some c.exp := rfl

theorem claimsToJson_inj (c c2 : ClaimsRecord) (h : claimsToJson c = claimsToJson c2) :
    c = c2 := by
  simp only [claimsToJson, Json.obj.injEq, List.cons.injEq, Prod.mk.injEq, Json.str.injEq,
    Json.arr.injEq, Json.num.injEq, and_true, true_and] at h
  obtain ⟨h1, h2, h3, h4, h5, h6⟩ := h
  have hg : c.groups = c2.groups := by
    have hinj : Function.Injective Json.str := fun a b hab => by injection hab
    exact List.map_injective_iff.mpr hinj h4
  cases c
  cases c2
  simp_all

/-- Characterization of the decoder on a non-empty explicit credential. -/
theorem getTokenPayload_char (st : Storage) (s : Str) (hs : s ≠ []) :
    getTokenPayload st (some s) =
      if (splitDot s).length < 2 then none
      else
        match base64UrlDecode (splitDot s)[1]! with
        | [] => none
        | json => Json.parse json := by
  unfold getTokenPayload
  show (if s = [] then none
      else if (splitDot s).length < 2 then none
      else match base64UrlDecode (splitDot s)[1]! with
        | [] => none
        | json => Json.parse json) = _
  rw [if_neg hs]

/-! ## Claim theorems -/

/-- C3 counterexample: the claim states that `set` swallows any storage
failure as a no-op, but a `setToken` call on a throwing storage propagates
the exception, because the source wraps only `getToken` in `try/catch`. -/
theorem tokenStore_set_throws_on_failing_storage :
    setToken stFailing (strLit "x") = Except.error "storage access failure" := rfl

/-- C3 (amended): for every storage behaviour, `get` never throws and
returns the stored credential, or `null` when the context is absent or the
access throws; `set` and `clear` are no-ops when the context is absent and
otherwise perform the write, but a throwing storage access propagates to
the caller instead of being swallowed. -/
theorem tokenStore_characterization (st : Storage) (tok : Str) :
    getToken st = (if st.present = true ∧ st.failing = false then st.slot else none)
    ∧ setToken st tok = (if st.present = false then Except.ok st
        else if st.failing = true then Except.error "storage access failure"
        else Except.ok { st with slot := some tok })
    ∧ clearToken st = (if st.present = false then Except.ok st
        else if st.failing = true then Except.error "storage access failure"
        else Except.ok { st with slot := none }) := by
  refine ⟨getToken_eq st, ?_, ?_⟩ <;>
    (rcases st with ⟨p, f, s⟩
     rcases p <;> rcases f <;> simp [setToken, clearToken, rawSetItem, rawRemoveItem])

/-- C1: the abort rejection raised when a protected-page instance is torn
down lands in the same `.catch` as real failures, so the handler clears the
token store and navigates to `/login` — a state transition that the spec
says cancellation must not cause. This evaluates the settle handler at the
aborted outcome of an instance with a stored credential. -/
theorem settle_abort_clears_and_redirects :
    settle (stWith (strLit "tok")) FetchOutcome.aborted
      = Except.ok (SettleStep.loggedOut loginPath, stEmpty) := rfl

/-- C10: the decoder and the expiry evaluator fall back to the stored
credential exactly when the argument is nullish; an explicitly passed empty
string yields null claims and `expired = true`, and for any explicit
credential the result never depends on the storage. -/
theorem decoder_nullish_fallback_only (st st2 : Storage) (now : Nat) (skew : Int) (s : Str) :
    getTokenPayload st (some []) = none
    ∧ isTokenExpired st now (some []) skew = true
    ∧ getTokenPayload st (some s) = getTokenPayload st2 (some s)
    ∧ isTokenExpired st now (some s) skew = isTokenExpired st2 now (some s) skew
    ∧ getTokenPayload st none = getTokenPayload st (getToken st)
    ∧ isTokenExpired st now none skew = isTokenExpired st now (getToken st) skew := by
  refine ⟨rfl, rfl, rfl, rfl, ?_, ?_⟩
  · cases h : getToken st <;> simp [getTokenPayload, h]
  · cases h : getToken st <;> simp [isTokenExpired, getTokenPayload, h]

theorem testClaims_ok (e : Int) : claimsOK (testClaims e) := by
  refine ⟨?_, ?_, ?_, ?_⟩
  · show strScalars (strLit "u1")
    decide
  · show strScalars (strLit "User")
    decide
  · show strScalars (strLit "u@x")
    decide
  · show ∀ g ∈ [strLit "g1"], strScalars g
    decide

/-- C4: the expiry evaluator returns true exactly when the decoded claims
are null, the `exp` claim is missing or non-numeric, or the current time is
at least `exp - max(0, skew)`; the default skew is 30 seconds and negative
skews are clamped to zero; and for a well-formed credential it returns
false at `exp = now + 100` with skew 30 and true at `exp = now + 10`. -/
theorem isTokenExpired_spec (st : Storage) (now : Nat) (t : Str) (skew : Int) :
    (isTokenExpired st now (some t) skew = true ↔
      getTokenPayload st (some t) = none
      ∨ (∃ p, getTokenPayload st (some t) = some p ∧ expOf p = none)
      ∨ (∃ p e, getTokenPayload st (some t) = some p ∧ expOf p = some e
          ∧ (now : Int) ≥ e - max 0 skew))
    ∧ isTokenExpired st now (some t) = isTokenExpired st now (some t) 30
    ∧ (∀ k : Nat, isTokenExpired st now (some t) (-(k : Int))
        = isTokenExpired st now (some t) 0)
    ∧ isTokenExpired st now (some (testCred ((now : Int) + 100))) 30 = false
    ∧ isTokenExpired st now (some (testCred ((now : Int) + 10))) 30 = true := by
  have hmax30 : max (0 : Int) 30 = 30 := by norm_num
  refine ⟨?_, rfl, ?_, ?_, ?_⟩
  · cases hp : getTokenPayload st (some t) with
    | none => simp [isTokenExpired, hp]
    | some p =>
      cases he : expOf p with
      | none => simp [isTokenExpired, hp, he]
      | some e =>
        by_cases he0 : e = 0
        · subst he0
          have hlhs : isTokenExpired st now (some t) skew = true := by
            simp [isTokenExpired, hp, he]
          rw [hlhs]
          simp only [true_iff]
          refine Or.inr (Or.inr ⟨p, 0, rfl, he, ?_⟩)
          have := le_max_left (0 : Int) skew
          omega
        · have hlhs : isTokenExpired st now (some t) skew
              = decide ((now : Int) ≥ e - max 0 skew) := by
            simp [isTokenExpired, hp, he, he0]
          rw [hlhs]
          simp only [decide_eq_true_eq]
          constructor
          · intro hge
            exact Or.inr (Or.inr ⟨p, e, rfl, he, hge⟩)
          · intro hor
            rcases hor with hbad | ⟨p2, hp2, hbad⟩ | ⟨p2, e2, hp2, he2, hge⟩
            · exact absurd hbad (by simp)
            · rw [Option.some.injEq] at hp2
              subst hp2
              rw [he] at hbad
              exact absurd hbad (by simp)
            · rw [Option.some.injEq] at hp2
              subst hp2
              rw [he] at he2
              rw [Option.some.injEq] at he2
              subst he2
              exact hge
  · intro k
    have hm : max (0 : Int) (-(k : Int)) = 0 := max_eq_left (by omega)
    have hm0 : max (0 : Int) (0 : Int) = 0 := max_self 0
    unfold isTokenExpired
    rw [hm, hm0]
  · have hp := payload_roundtrip st (testClaims ((now : Int) + 100)) hdr0 sig0
      (testClaims_ok _) (by decide)
    have hcred : testCred ((now : Int) + 100)
        = mkCredential hdr0 (testClaims ((now : Int) + 100)) sig0 := rfl
    rw [hcred]
    have hexp2 : expOf (claimsToJson (testClaims ((now : Int) + 100)))
        = some ((now : Int) + 100) := rfl
    have hne0 : ((now : Int) + 100) ≠ 0 := by omega
    have hstep : isTokenExpired st now
        (some (mkCredential hdr0 (testClaims ((now : Int) + 100)) sig0)) 30
        = decide ((now : Int) ≥ ((now : Int) + 100) - max 0 30) := by
      simp [isTokenExpired, hp, hexp2, hne0]
    rw [hstep, hmax30]
    exact decide_eq_false (by omega)
  · have hp := payload_roundtrip st (testClaims ((now : Int) + 10)) hdr0 sig0
      (testClaims_ok _) (by decide)
    have hcred : testCred ((now : Int) + 10)
        = mkCredential hdr0 (testClaims ((now : Int) + 10)) sig0 := rfl
    rw [hcred]
    have hexp2 : expOf (claimsToJson (testClaims ((now : Int) + 10)))
        = some ((now : Int) + 10) := rfl
    have hne0 : ((now : Int) + 10) ≠ 0 := by omega
    have hstep : isTokenExpired st now
        (some (mkCredential hdr0 (testClaims ((now : Int) + 10)) sig0)) 30
        = decide ((now : Int) ≥ ((now : Int) + 10) - max 0 30) := by
      simp [isTokenExpired, hp, hexp2, hne0]
    rw [hstep, hmax30]
    exact decide_eq_true (by omega)

/-- C7: the Credential Decoder is total — every raise point of the platform
primitives is modelled as a `none` that the source catches — and it returns
null claims for fewer than two dot-separated segments, as well as on any
base64 decode error, UTF-8 interpretation error, or JSON parse error of the
second segment. -/
theorem getTokenPayload_failure_cases (st : Storage) (s : Str) :
    ((splitDot s).length < 2 → getTokenPayload st (some s) = none)
    ∧ (2 ≤ (splitDot s).length →
        (atob (normalizeB64 (splitDot s)[1]!) = none → getTokenPayload st (some s) = none)
        ∧ (∀ bytes, atob (normalizeB64 (splitDot s)[1]!) = some bytes →
            utf8Decode bytes = none → getTokenPayload st (some s) = none)
        ∧ (∀ json, base64UrlDecode (splitDot s)[1]! = json → Json.parse json = none →
            getTokenPayload st (some s) = none)) := by
  constructor
  · intro hlt
    by_cases hs : s = []
    · subst hs; rfl
    · rw [getTokenPayload_char st s hs, if_pos hlt]
  · intro hge
    have hs : s ≠ [] := by
      intro h
      rw [h] at hge
      simp [splitDot] at hge
    have hchar := getTokenPayload_char st s hs
    rw [if_neg (by omega)] at hchar
    refine ⟨?_, ?_, ?_⟩
    · intro hatob
      rw [hchar]
      unfold base64UrlDecode
      rw [hatob]
    · intro bytes hatob hutf
      rw [hchar]
      unfold base64UrlDecode
      rw [hatob]
      show (match (match utf8Decode bytes with | none => [] | some s2 => s2) with
        | [] => none
        | json => Json.parse json) = none
      rw [hutf]
    · intro json hdec hparse
      rw [hchar, hdec]
      cases json with
      | nil => rfl
      | cons c tl => exact hparse

/-- Witness for C7 at concrete inputs: a one-segment string decodes to null
claims, and a two-segment string whose second segment fails base64 decoding
also decodes to null claims. -/
theorem getTokenPayload_failure_cases_witness :
    ((splitDot (strLit "x")).length < 2 ∧ getTokenPayload stEmpty (some (strLit "x")) = none)
    ∧ (2 ≤ (splitDot (strLit "a.!!!")).length
        ∧ atob (normalizeB64 (splitDot (strLit "a.!!!"))[1]!) = none
        ∧ getTokenPayload stEmpty (some (strLit "a.!!!")) = none) :=
  ⟨⟨by decide, (getTokenPayload_failure_cases stEmpty (strLit "x")).1 (by decide)⟩,
    ⟨by decide, by decide,
      ((getTokenPayload_failure_cases stEmpty (strLit "a.!!!")).2 (by decide)).1 (by decide)⟩⟩

/-- C9: the decoder result depends only on the second dot-separated
segment: two credentials with at least two segments and equal second
segments decode to the same claims, for any storage behaviours. -/
theorem getTokenPayload_second_segment_only (st st2 : Storage) (s s2 : Str)
    (h1 : 2 ≤ (splitDot s).length) (h2 : 2 ≤ (splitDot s2).length)
    (heq : (splitDot s)[1]! = (splitDot s2)[1]!) :
    getTokenPayload st (some s) = getTokenPayload st2 (some s2) := by
  have hs : s ≠ [] := by
    intro h
    rw [h] at h1
    simp [splitDot] at h1
  have hs2 : s2 ≠ [] := by
    intro h
    rw [h] at h2
    simp [splitDot] at h2
  rw [getTokenPayload_char st s hs, getTokenPayload_char st2 s2 hs2,
    if_neg (by omega), if_neg (by omega), heq]

/-- Witness for C9 at concrete inputs: `"a.QQ.c"` and `"x.QQ"` share their
second segment and decode identically. -/
theorem getTokenPayload_second_segment_only_witness :
    2 ≤ (splitDot (strLit "a.QQ.c")).length
    ∧ 2 ≤ (splitDot (strLit "x.QQ")).length
    ∧ (splitDot (strLit "a.QQ.c"))[1]! = (splitDot (strLit "x.QQ"))[1]!
    ∧ getTokenPayload stEmpty (some (strLit "a.QQ.c"))
        = getTokenPayload stFailing (some (strLit "x.QQ")) :=
  ⟨by decide, by decide, by decide,
    getTokenPayload_second_segment_only stEmpty stFailing _ _ (by decide) (by decide)
      (by decide)⟩

/-- C8: encoding a claims record as JSON text, UTF-8 bytes and URL-safe
base64 with stripped padding, placing it as the second dot-separated
segment of a credential, and decoding through the Credential Decoder yields
exactly the JSON object of the original record, and that object determines
the record uniquely. The strings of the record must consist of Unicode
scalar values and the header segment must be dot-free. -/
theorem credential_roundtrip (st : Storage) (c : ClaimsRecord) (hdr sig : Str)
    (hc : claimsOK c) (hh : 46 ∉ hdr) :
    getTokenPayload st (some (mkCredential hdr c sig)) = some (claimsToJson c)
    ∧ ∀ c2 : ClaimsRecord, claimsToJson c2 = claimsToJson c → c2 = c :=
  ⟨payload_roundtrip st c hdr sig hc hh, fun c2 h => claimsToJson_inj c2 c h⟩

/-- Witness for C8 at a concrete claims record. -/
theorem credential_roundtrip_witness :
    claimsOK (testClaims 100) ∧ 46 ∉ hdr0
    ∧ getTokenPayload stEmpty (some (mkCredential hdr0 (testClaims 100) sig0))
        = some (claimsToJson (testClaims 100)) :=
  ⟨testClaims_ok 100, by decide,
    (credential_roundtrip stEmpty (testClaims 100) hdr0 sig0 (testClaims_ok 100) (by decide)).1⟩

/-- C2 counterexample: a protected-page instance with a valid, unexpired
stored credential and an absent base URL does not surface a thrown
configuration error: the mount succeeds, issues no request, and renders the
page with the session check skipped. -/
theorem sessionGuard_missing_base_url_counterexample :
    protectedMount 0 none (stWith (testCred 4102444800))
      = Except.ok (MountStep.renderedUnverified, stWith (testCred 4102444800))
    ∧ stepRequests MountStep.renderedUnverified = 0 := ⟨rfl, rfl⟩

/-- C2 (amended): when the backend base URL environment value is absent or
empty, `getBaseUrl` and both embedded CRUD request builders surface the
thrown configuration error to the caller, while the Session Guard instead
skips identity verification without throwing and renders the page. -/
theorem config_error_behavior (env : Option Str) (d : Str) (i : Nat)
    (now : Nat) (st : Storage) (t : Str)
    (henv : env = none ∨ env = some [])
    (ht : getToken st = some t)
    (hexp : isTokenExpired st now (some t) = false) :
    getBaseUrl env = Except.error "NEXT_PUBLIC_PY_API_URL não configurada"
    ∧ getDeviceDetailUrl env d = Except.error "NEXT_PUBLIC_PY_API_URL não configurada"
    ∧ deleteMaintenanceUrl env i = Except.error "NEXT_PUBLIC_PY_API_URL não configurada"
    ∧ protectedMount now env st = Except.ok (MountStep.renderedUnverified, st) := by
  have hb : getBaseUrl env = Except.error "NEXT_PUBLIC_PY_API_URL não configurada" := by
    rcases henv with rfl | rfl <;> simp [getBaseUrl]
  have hne : t ≠ [] := by
    intro h
    rw [h] at hexp
    rw [show isTokenExpired st now (some ([] : Str)) = true from rfl] at hexp
    simp at hexp
  refine ⟨hb, ?_, ?_, ?_⟩
  · simp [getDeviceDetailUrl, hb, Except.map]
  · simp [deleteMaintenanceUrl, hb, Except.map]
  · rcases henv with rfl | rfl <;> simp [protectedMount, ht, hne, hexp]

/-- Witness for C2 at concrete inputs. -/
theorem config_error_behavior_witness :
    ((none : Option Str) = none ∨ (none : Option Str) = some [])
    ∧ getToken (stWith (testCred 4102444800)) = some (testCred 4102444800)
    ∧ isTokenExpired (stWith (testCred 4102444800)) 0 (some (testCred 4102444800)) = false
    ∧ getBaseUrl none = Except.error "NEXT_PUBLIC_PY_API_URL não configurada"
    ∧ protectedMount 0 none (stWith (testCred 4102444800))
        = Except.ok (MountStep.renderedUnverified, stWith (testCred 4102444800)) := by
  have h := config_error_behavior none (strLit "d7") 3 0 (stWith (testCred 4102444800))
    (testCred 4102444800) (Or.inl rfl) rfl (by rfl)
  exact ⟨Or.inl rfl, rfl, by rfl, h.1, h.2.2.2⟩

/-- C5 counterexample: (a) an instance with a valid, unexpired stored
credential but no configured base URL issues zero identity-verification
requests, and (b) a success response whose body is not JSON does not reach
the Authenticated state — the handler clears the store and redirects. -/
theorem sessionGuard_verification_counterexample :
    protectedMount 0 none (stWith (testCred 4102444800))
      = Except.ok (MountStep.renderedUnverified, stWith (testCred 4102444800))
    ∧ stepRequests MountStep.renderedUnverified = 0
    ∧ settle (stWith (testCred 4102444800)) (FetchOutcome.response 200 (strLit "notjson"))
      = Except.ok (SettleStep.loggedOut loginPath, stEmpty) := ⟨rfl, rfl, rfl⟩

/-- C5 (amended): for a protected-page instance with a working storage, a
stored credential that is not locally expired, and a non-empty base URL,
the mount issues exactly one identity-verification request carrying the
credential as a bearer authorization header; a 401 or any other non-2xx
response clears the store and redirects to `/login`; a 2xx response whose
body parses as JSON reaches the Authenticated state with that profile; and
a 2xx response with an unparseable body is treated as a failure. -/
theorem sessionGuard_verification (now : Nat) (base : Str) (st : Storage) (t : Str)
    (hp : st.present = true) (hf : st.failing = false)
    (hbase : base ≠ [])
    (ht : getToken st = some t)
    (hexp : isTokenExpired st now (some t) = false) :
    protectedMount now (some base) st
      = Except.ok (MountStep.requested (base ++ strLit "/api/auth/me")
          (strLit "Bearer " ++ t), st)
    ∧ stepRequests (MountStep.requested (base ++ strLit "/api/auth/me")
        (strLit "Bearer " ++ t)) = 1
    ∧ (∀ body, settle st (FetchOutcome.response 401 body)
        = Except.ok (SettleStep.loggedOut loginPath, { st with slot := none }))
    ∧ (∀ status body, status < 200 ∨ 299 < status →
        settle st (FetchOutcome.response status body)
          = Except.ok (SettleStep.loggedOut loginPath, { st with slot := none }))
    ∧ (∀ status body j, 200 ≤ status → status ≤ 299 → Json.parse body = some j →
        settle st (FetchOutcome.response status body)
          = Except.ok (SettleStep.authenticated j, st))
    ∧ (∀ status body, 200 ≤ status → status ≤ 299 → Json.parse body = none →
        settle st (FetchOutcome.response status body)
          = Except.ok (SettleStep.loggedOut loginPath, { st with slot := none }))
    ∧ settle st FetchOutcome.transportError
        = Except.ok (SettleStep.loggedOut loginPath, { st with slot := none }) := by
  have hne : t ≠ [] := by
    intro h
    rw [h] at hexp
    rw [show isTokenExpired st now (some ([] : Str)) = true from rfl] at hexp
    simp at hexp
  have hclear := clearToken_ok st hp hf
  refine ⟨?_, rfl, ?_, ?_, ?_, ?_, ?_⟩
  · simp [protectedMount, ht, hne, hexp, hbase]
  · intro body
    simp [settle, hclear, Except.map]
  · intro status body hst
    by_cases h401 : status = 401
    · subst h401
      simp [settle, hclear, Except.map]
    · simp [settle, h401, hst, hclear, Except.map]
  · intro status body j hst1 hst2 hj
    have h401 : status ≠ 401 := by omega
    have hrange : ¬ (status < 200 ∨ 299 < status) := by
      intro h2
      rcases h2 with h2 | h2 <;> omega
    simp [settle, h401, hrange, hj]
  · intro status body hst1 hst2 hj
    have h401 : status ≠ 401 := by omega
    have hrange : ¬ (status < 200 ∨ 299 < status) := by
      intro h2
      rcases h2 with h2 | h2 <;> omega
    simp [settle, h401, hrange, hj, hclear, Except.map]
  · simp [settle, hclear, Except.map]

/-- Witness for C5 at concrete inputs. -/
theorem sessionGuard_verification_witness :
    (stWith (testCred 4102444800)).present = true
    ∧ (stWith (testCred 4102444800)).failing = false
    ∧ strLit "http://b" ≠ ([] : Str)
    ∧ getToken (stWith (testCred 4102444800)) = some (testCred 4102444800)
    ∧ isTokenExpired (stWith (testCred 4102444800)) 0 (some (testCred 4102444800)) = false
    ∧ protectedMount 0 (some (strLit "http://b")) (stWith (testCred 4102444800))
        = Except.ok (MountStep.requested (strLit "http://b" ++ strLit "/api/auth/me")
            (strLit "Bearer " ++ testCred 4102444800), stWith (testCred 4102444800)) := by
  have h := sessionGuard_verification 0 (strLit "http://b") (stWith (testCred 4102444800))
    (testCred 4102444800) rfl rfl (by decide) rfl (by rfl)
  exact ⟨rfl, rfl, by decide, rfl, by rfl, h.1⟩

/-- C6 counterexample: on a storage whose accesses throw, the stored
credential reads as absent (squarely inside the claim's antecedent), yet
`clearToken` has no `try/catch`, so the effect propagates the storage
exception instead of redirecting: no navigation to `/login` happens, no
redirected step is produced, and the stored slot is not cleared. -/
theorem sessionGuard_throwing_storage_counterexample :
    getToken stFailingTok = none
    ∧ protectedMount 7 (some (strLit "http://b")) stFailingTok
        = Except.error "storage access failure"
    ∧ stFailingTok.slot = some (strLit "tok") := ⟨rfl, rfl, rfl⟩

/-- C6 (amended): when the stored credential reads as absent or locally
expired on a protected page, a working storage is cleared and the instance
immediately redirects to `/login` issuing zero network requests; with no
storage context the redirect still happens and the clear is a no-op; but on
a throwing storage, where the credential always reads as absent, the clear
step propagates the storage exception and no redirect is reached. -/
theorem sessionGuard_no_credential_redirects (now : Nat) (env : Option Str) (st : Storage)
    (h : getToken st = none
      ∨ ∃ t, getToken st = some t ∧ isTokenExpired st now (some t) = true) :
    (st.present = true → st.failing = false →
      protectedMount now env st
        = Except.ok (MountStep.redirected loginPath, { st with slot := none }))
    ∧ (st.present = false →
      protectedMount now env st = Except.ok (MountStep.redirected loginPath, st))
    ∧ (st.present = true → st.failing = true →
      protectedMount now env st = Except.error "storage access failure")
    ∧ stepRequests (MountStep.redirected loginPath) = 0 := by
  refine ⟨?_, ?_, ?_, rfl⟩
  · intro hp hf
    have hclear := clearToken_ok st hp hf
    rcases h with h | ⟨t, ht, hexp⟩
    · simp [protectedMount, h, hclear, Except.map]
    · by_cases hte : t = []
      · subst hte
        simp [protectedMount, ht, hclear, Except.map]
      · simp [protectedMount, ht, hte, hexp, hclear, Except.map]
  · intro hp
    have ht : getToken st = none := by
      rw [getToken_eq]
      simp [hp]
    have hclear : clearToken st = Except.ok st := by
      simp [clearToken, hp]
    simp [protectedMount, ht, hclear, Except.map]
  · intro hp hf
    have ht : getToken st = none := by
      rw [getToken_eq]
      simp [hf]
    have hclear : clearToken st = Except.error "storage access failure" := by
      simp [clearToken, hp, rawRemoveItem, hf]
    simp [protectedMount, ht, hclear, Except.map]

/-- Witness for C6 at a concrete input: empty working storage on a protected
page redirects at once without any request. -/
theorem sessionGuard_no_credential_redirects_witness :
    getToken stEmpty = none
    ∧ protectedMount 7 (some (strLit "http://b")) stEmpty
        = Except.ok (MountStep.redirected loginPath, { stEmpty with slot := none })
    ∧ stepRequests (MountStep.redirected loginPath) = 0 := by
  have h := sessionGuard_no_credential_redirects 7 (some (strLit "http://b")) stEmpty
    (Or.inl rfl)
  exact ⟨rfl, h.1 rfl rfl, h.2.2.2⟩
